import Mathlib

/-!
IPScope: the rate-limited geolocation client, the exporter and the configuration.

A shallow embedding of `internal/geolocation/ipapi_client.go`,
`internal/metrics/exporter.go`, `internal/model/config.go` and
`internal/config/loader.go`.

Modelling conventions.

* A Go `time.Time` is an instant on one timeline: the `Int` that counts the
  nanoseconds from the zero `Time` (January 1, year 1, 00:00:00 UTC), so the
  zero value is the integer `0`.  The wall clock and the monotonic clock are
  taken to agree, and the range of `time.Time` (an `int64` count of seconds)
  is not bounded.
* A Go `time.Duration` is an `int64` count of nanoseconds: it is an `Int`, and
  the operations that can leave the `int64` range say what Go does there
  (`wrapInt64` for the multiplication, saturation for `Time.Sub`).
* Go's `int` is the 64-bit `int`.
* A Go `string` is a Lean `String` (well-formed UTF-8 text).
* `time.Now()` is an argument: every function that reads the clock takes the
  reading it gets.  The mutex makes each method atomic, so a method is a
  function from the state before to the state after.
* A `float64` is its IEEE 754 bit pattern; `strconv.FormatFloat` with the
  format `f` and six decimals is computed on it exactly.
* A `Resolver` is any function of a state of its own and the endpoint; the
  context is part of that state.  A `prometheus.GaugeVec` is the list of its
  series, and `Refresh` also yields the trace of its calls and writes.
* `net.ParseIP` is modelled after `netip.ParseAddr`, which it calls.
-/

namespace IPScope

/-! ## The Go library functions the client uses -/

/-- The least `time.Duration`, `-1 << 63`. -/
def minDuration : Int := -(2 ^ 63)

/-- The greatest `time.Duration`, `1<<63 - 1`. -/
def maxDuration : Int := 2 ^ 63 - 1

/-- Reduction of an integer to the `int64` it is stored as (two's complement). -/
def wrapInt64 (x : Int) : Int := (x + 2 ^ 63) % 2 ^ 64 - 2 ^ 63

/-- The constant `time.Second`. -/
def Second : Int := 1000000000

/-- The constant `time.Millisecond`. -/
def Millisecond : Int := 1000000

/-- The method `Time.IsZero`: the instant is the zero `Time`. -/
def Time.IsZero (t : Int) : Bool := decide (t = 0)

/-- The method `Time.After`: `t.After(u)` is `t > u`. -/
def Time.After (t u : Int) : Bool := decide (u < t)

/-- The method `Time.Add`. -/
def Time.Add (t : Int) (d : Int) : Int := t + d

/-- The method `Time.Sub`: the difference `t - u`, saturated to the range of
`time.Duration`. -/
def Time.Sub (t u : Int) : Int :=
  if t - u < minDuration then minDuration
  else if maxDuration < t - u then maxDuration
  else t - u

/-- The predicate `unicode.IsSpace` (the characters with the White_Space property). -/
def isSpace (c : Char) : Bool :=
  let n := c.toNat
  n == 0x09 || n == 0x0A || n == 0x0B || n == 0x0C || n == 0x0D || n == 0x20 ||
  n == 0x85 || n == 0xA0 || n == 0x1680 || (0x2000 ≤ n && n ≤ 0x200A) ||
  n == 0x2028 || n == 0x2029 || n == 0x202F || n == 0x205F || n == 0x3000

/-- Removal of the leading and the trailing white space of a list of characters. -/
def trimRunes (cs : List Char) : List Char :=
  ((cs.dropWhile isSpace).reverse.dropWhile isSpace).reverse

/-- The function `strings.TrimSpace`. -/
def TrimSpace (s : String) : String := String.mk (trimRunes s.data)

/-- The value of a decimal digit, `none` for any other character. -/
def digitValue (c : Char) : Option Nat :=
  if 48 ≤ c.toNat ∧ c.toNat ≤ 57 then some (c.toNat - 48) else none

/-- The value of a string of decimal digits read after the value `acc`;
`none` when a character is not a digit. -/
def parseDigits : List Char → Nat → Option Nat
  | [], acc => some acc
  | c :: cs, acc =>
    match digitValue c with
    | none => none
    | some d => parseDigits cs (acc * 10 + d)

/-- The value of an optionally signed, non-empty string of decimal digits. -/
def parseSigned : List Char → Option Int
  | [] => none
  | c :: cs =>
    if c = '-' then
      match cs with
      | [] => none
      | _ :: _ => (parseDigits cs 0).map fun n => -(n : Int)
    else if c = '+' then
      match cs with
      | [] => none
      | _ :: _ => (parseDigits cs 0).map fun n => (n : Int)
    else (parseDigits (c :: cs) 0).map fun n => (n : Int)

/-- The function `strconv.Atoi`, with `none` for a non-nil error (a syntax
error, or a value outside the range of `int`). -/
def Atoi (s : String) : Option Int :=
  match parseSigned s.data with
  | none => none
  | some v => if -(2 ^ 63) ≤ v ∧ v ≤ 2 ^ 63 - 1 then some v else none

/-! ## The rate gate of `APIClient` -/

/-- The rate-limit fields of the struct `APIClient` (those under `mu`). -/
structure APIClient where
  /-- A `time.Duration`. -/
  minInterval : Int
  /-- A `time.Time`. -/
  blockedUntil : Int
  /-- A `time.Time`. -/
  lastRequest : Int
  deriving DecidableEq, Repr

/-- The constant `defaultMinRequestInterval`. -/
def defaultMinRequestInterval : Int := 1500 * Millisecond

/-- The constructor `NewAPIClient`: both instants are the zero `Time`. -/
def NewAPIClient : APIClient :=
  { minInterval := defaultMinRequestInterval, blockedUntil := 0, lastRequest := 0 }

/-- The method `nextWaitDuration`, at the clock reading `now`: the state after
the call and the wait returned. -/
def APIClient.nextWaitDuration (c : APIClient) (now : Int) : APIClient × Int :=
  if Time.After c.blockedUntil now then
    (c, Time.Sub c.blockedUntil now)
  else if Time.IsZero c.lastRequest then
    ({ c with lastRequest := now }, 0)
  else
    let nextAllowed := Time.Add c.lastRequest c.minInterval
    if Time.After nextAllowed now then
      (c, Time.Sub nextAllowed now)
    else
      ({ c with lastRequest := now }, 0)

/-- The method `applyRateLimitWindow`, at the clock reading `now`. -/
def APIClient.applyRateLimitWindow (c : APIClient) (now : Int) (xTTL : String) : APIClient :=
  match Atoi (TrimSpace xTTL) with
  | none => c
  | some ttl =>
    if ttl ≤ 0 then c
    else
      let untl := Time.Add now (wrapInt64 (ttl * Second))
      if Time.After untl c.blockedUntil then { c with blockedUntil := untl } else c

/-- The method `applyRemainingWindow`, at the clock reading `now`. -/
def APIClient.applyRemainingWindow (c : APIClient) (now : Int) (xRL xTTL : String) :
    APIClient :=
  if TrimSpace xRL ≠ "0" then c else c.applyRateLimitWindow now xTTL

/-- One pass of the loop of `waitForAllowance` as the world decides it: the
clock reading `now` that `nextWaitDuration` gets, and whether `ctx.Done()` is
the case of the `select` that is taken when the wait is positive. -/
structure WaitStep where
  now : Int
  done : Bool
  deriving DecidableEq, Repr

/-- How a run of `waitForAllowance` ends: it returns `nil`, it returns the
cancellation error, or it is still in the loop when the steps given are used up. -/
inductive WaitOutcome where
  | granted
  | cancelled
  | waiting
  deriving DecidableEq, Repr

/-- The method `waitForAllowance`, along the given passes of its loop. -/
def APIClient.waitForAllowance (c : APIClient) : List WaitStep → APIClient × WaitOutcome
  | [] => (c, WaitOutcome.waiting)
  | step :: rest =>
    let r := c.nextWaitDuration step.now
    if r.2 ≤ 0 then (r.1, WaitOutcome.granted)
    else if step.done then (r.1, WaitOutcome.cancelled)
    else APIClient.waitForAllowance r.1 rest

/-- A call on the gate: `nextWaitDuration`, `applyRateLimitWindow` or
`applyRemainingWindow`, with the clock reading it gets and its arguments. -/
inductive GateCall where
  | nextWait (now : Int)
  | rateLimit (now : Int) (xTTL : String)
  | remaining (now : Int) (xRL xTTL : String)
  deriving DecidableEq, Repr

/-- The clock readings at which the calls of `nextWaitDuration` in a sequence
of calls on the gate grant a turn (return a wait that is not positive), in order. -/
def APIClient.grants (c : APIClient) : List GateCall → List Int
  | [] => []
  | GateCall.nextWait now :: rest =>
    let r := c.nextWaitDuration now
    if r.2 ≤ 0 then now :: APIClient.grants r.1 rest else APIClient.grants r.1 rest
  | GateCall.rateLimit now xTTL :: rest =>
    APIClient.grants (c.applyRateLimitWindow now xTTL) rest
  | GateCall.remaining now xRL xTTL :: rest =>
    APIClient.grants (c.applyRemainingWindow now xRL xTTL) rest

/-- The clock readings of the calls of `nextWaitDuration` in a sequence of calls. -/
def waitReadings : List GateCall → List Int
  | [] => []
  | GateCall.nextWait now :: rest => now :: waitReadings rest
  | _ :: rest => waitReadings rest

/-- The state of the gate after a sequence of calls on it. -/
def APIClient.afterCalls (c : APIClient) : List GateCall → APIClient
  | [] => c
  | GateCall.nextWait now :: rest => APIClient.afterCalls (c.nextWaitDuration now).1 rest
  | GateCall.rateLimit now xTTL :: rest =>
    APIClient.afterCalls (c.applyRateLimitWindow now xTTL) rest
  | GateCall.remaining now xRL xTTL :: rest =>
    APIClient.afterCalls (c.applyRemainingWindow now xRL xTTL) rest

/-- The wait as the specification words it, to be compared with the wait of
`nextWaitDuration`: `max(blockedUntil - now, (lastRequestAt + minInterval) - now, 0)`,
the differences being durations (`Time.Sub`), and an unset `lastRequest`
contributing no term. -/
def specWait (c : APIClient) (now : Int) : Int :=
  if Time.IsZero c.lastRequest then
    max (Time.Sub c.blockedUntil now) 0
  else
    max (Time.Sub c.blockedUntil now)
      (max (Time.Sub (Time.Add c.lastRequest c.minInterval) now) 0)

/-! ## The resolver -/

/-- A `float64`, by its IEEE 754 bit pattern. -/
structure Float64 where
  bits : Nat
  deriving DecidableEq, Repr

/-- The struct `model.DatacenterInfo`. -/
structure DatacenterInfo where
  Datacenter : String
  City : String
  Region : String
  Country : String
  Latitude : Float64
  Longitude : Float64
  deriving DecidableEq, Repr

/-- The struct `ipAPIResponse`: the decoded body.  A field that the body does
not give keeps the zero value of its type. -/
structure ipAPIResponse where
  Status : String := ""
  Message : String := ""
  Country : String := ""
  CountryCode : String := ""
  Region : String := ""
  RegionName : String := ""
  City : String := ""
  Latitude : Float64 := ⟨0⟩
  Longitude : Float64 := ⟨0⟩
  Timezone : String := ""
  ISP : String := ""
  Org : String := ""
  Query : String := ""
  deriving DecidableEq, Repr

/-- What the client reads of an `http.Response`: the status code, the values
`Header.Get` gives for `X-Rl` and `X-Ttl` (the empty string for an absent
header), and the outcome of decoding the body (`none` for a decoding error). -/
structure Response where
  StatusCode : Int
  XRl : String
  XTtl : String
  Body : Option ipAPIResponse
  deriving DecidableEq, Repr

/-- The rune `unicode.ToLower c` when that rune is an ASCII character, and `c`
otherwise.  The client searches the lowered text for an ASCII phrase only, so
the lower-case form of the other characters is not looked at. -/
def lowerRune (c : Char) : Char :=
  if 65 ≤ c.toNat ∧ c.toNat ≤ 90 then Char.ofNat (c.toNat + 32)
  else if c.toNat = 0x130 then 'i'
  else if c.toNat = 0x212A then 'k'
  else c

/-- The function `strings.ToLower`, as far as `lowerRune` gives it. -/
def ToLower (s : String) : String := String.mk (s.data.map lowerRune)

/-- Whether the list `sub` occurs in `cs` as a block of consecutive characters. -/
def containsRunes : List Char → List Char → Bool
  | [], sub => sub.isEmpty
  | c :: cs, sub => sub.isPrefixOf (c :: cs) || containsRunes cs sub

/-- The function `strings.Contains`. -/
def Contains (s substr : String) : Bool := containsRunes s.data substr.data

/-- The function `firstNonEmpty`. -/
def firstNonEmpty : List String → String
  | [] => ""
  | value :: rest => if TrimSpace value ≠ "" then value else firstNonEmpty rest

/-- The errors `ResolveDatacenter` returns, one constructor for each
`fmt.Errorf` of the method, with the values its format prints. -/
inductive ResolveError where
  /-- The error of `waitForAllowance`: `wait for geolocation rate limit allowance: ...`. -/
  | waitCancelled
  /-- The error `create request: ...`. -/
  | createRequest
  /-- The error `request geolocation API: ...`. -/
  | request
  /-- The error `geolocation API returned status %d (rate limited, X-Rl=%q, X-Ttl=%q)`. -/
  | rateLimitedStatus (code : Int) (xRL xTTL : String)
  /-- The error `geolocation API returned status %d`. -/
  | status (code : Int)
  /-- The error `decode geolocation API response: ...`. -/
  | decode
  /-- The error `geolocation API error: %s (rate limited, X-Rl=%q, X-Ttl=%q)`. -/
  | rateLimitedMessage (reason xRL xTTL : String)
  /-- The error `geolocation API error: %s`. -/
  | api (reason : String)
  deriving DecidableEq, Repr

deriving instance DecidableEq for Except

/-- What the world gives one call of `ResolveDatacenter`: the passes of the
loop of `waitForAllowance`, whether `http.NewRequestWithContext` succeeds, the
response of `httpClient.Do` (`none` for an error), and the clock readings of
the two places that may call `applyRateLimitWindow` (line 88, and line 81 or 104). -/
structure Exchange where
  waits : List WaitStep
  requestOK : Bool
  response : Option Response
  nowRemaining : Int
  nowLimit : Int
  deriving DecidableEq, Repr

/-- The constant `http.StatusOK`. -/
def StatusOK : Int := 200

/-- The constant `http.StatusTooManyRequests`. -/
def StatusTooManyRequests : Int := 429

/-- The part of `ResolveDatacenter` after `httpClient.Do` has returned a response. -/
def APIClient.handleResponse (c : APIClient) (x : Exchange) (resp : Response) :
    APIClient × Except ResolveError DatacenterInfo :=
  if resp.StatusCode ≠ StatusOK then
    if resp.StatusCode = StatusTooManyRequests then
      (c.applyRateLimitWindow x.nowLimit resp.XTtl,
        Except.error (ResolveError.rateLimitedStatus resp.StatusCode resp.XRl resp.XTtl))
    else
      (c, Except.error (ResolveError.status resp.StatusCode))
  else
    let c1 := c.applyRemainingWindow x.nowRemaining resp.XRl resp.XTtl
    match resp.Body with
    | none => (c1, Except.error ResolveError.decode)
    | some parsed =>
      if parsed.Status ≠ "success" then
        let reason := if TrimSpace parsed.Message = "" then "unknown" else TrimSpace parsed.Message
        if Contains (ToLower reason) "too many requests" then
          (c1.applyRateLimitWindow x.nowLimit resp.XTtl,
            Except.error (ResolveError.rateLimitedMessage reason resp.XRl resp.XTtl))
        else
          (c1, Except.error (ResolveError.api reason))
      else
        let datacenter := firstNonEmpty
          [parsed.Org, parsed.ISP, parsed.City ++ "-" ++ parsed.RegionName, parsed.City, "unknown"]
        (c1, Except.ok
          { Datacenter := datacenter
            City := parsed.City
            Region := parsed.RegionName
            Country := parsed.Country
            Latitude := parsed.Latitude
            Longitude := parsed.Longitude })

/-- The method `ResolveDatacenter`: the state of the gate after the call and
what the call returns; `none` when the call is still waiting for its turn
after the passes given.  The argument `endpoint` only makes the URL of the
request; what the provider answers to it is in the exchange. -/
def APIClient.ResolveDatacenter (c : APIClient) (x : Exchange) :
    Option (APIClient × Except ResolveError DatacenterInfo) :=
  match c.waitForAllowance x.waits with
  | (_, WaitOutcome.waiting) => none
  | (c0, WaitOutcome.cancelled) => some (c0, Except.error ResolveError.waitCancelled)
  | (c0, WaitOutcome.granted) =>
    if ¬ x.requestOK then some (c0, Except.error ResolveError.createRequest)
    else
      match x.response with
      | none => some (c0, Except.error ResolveError.request)
      | some resp => some (c0.handleResponse x resp)

/-- The text that `ResolveDatacenter` takes for the sign of throttling. -/
def rateLimitText : String := "too many requests"

/-- The message contains the rate-limit text in some letter case: a block of
consecutive characters of the message is, once lowered, the text. -/
def MentionsRateLimit (message : String) : Prop :=
  ∃ pre mid post : List Char,
    message.data = pre ++ mid ++ post ∧ mid.map lowerRune = rateLimitText.data

/-- A body of a throttled answer of the provider. -/
def throttledBody : ipAPIResponse :=
  { Status := "fail", Message := " Too Many Requests, slow down\n" }

/-- A body of a successful answer of the provider. -/
def parisBody : ipAPIResponse :=
  { Status := "success", Country := "France", RegionName := "IDF", City := "Paris",
    Latitude := ⟨0x40486E147AE147AE⟩, Longitude := ⟨0x4002CCCCCCCCCCCD⟩, ISP := "ACME" }

/-- An exchange in which the first pass of the gate grants the turn at instant
1000 and the provider answers with `resp`. -/
def exchangeWith (resp : Response) : Exchange :=
  { waits := [⟨1000, false⟩], requestOK := true, response := some resp,
    nowRemaining := 2000, nowLimit := 3000 }

/-! ## The configuration (`internal/model/config.go`, `internal/config/loader.go`) -/

/-- The struct `model.ServerConfig`. -/
structure ServerConfig where
  Host : String
  Port : Int
  deriving DecidableEq, Repr

/-- The struct `model.MetricsConfig`. -/
structure MetricsConfig where
  Prefix : String
  deriving DecidableEq, Repr

/-- The struct `model.NodeConfig`. -/
structure NodeConfig where
  Name : String
  Endpoint : String
  deriving DecidableEq, Repr

/-- The struct `model.Config`. -/
structure Config where
  Server : ServerConfig
  Metrics : MetricsConfig
  Nodes : List NodeConfig
  deriving DecidableEq, Repr

/-- The constant `DefaultHost`. -/
def DefaultHost : String := "127.0.0.1"

/-- The constant `DefaultPort`. -/
def DefaultPort : Int := 9100

/-- The constant `DefaultPrefix`. -/
def DefaultPrefix : String := "ipscope"

/-- The pieces of a list of characters between the occurrences of `sep`. -/
def splitRunes (sep : Char) : List Char → List (List Char)
  | [] => [[]]
  | c :: cs =>
    if c = sep then [] :: splitRunes sep cs
    else
      match splitRunes sep cs with
      | [] => [[c]]
      | piece :: pieces => (c :: piece) :: pieces

/-- One field of a dotted IPv4 address: decimal digits, at least one, no
leading zero before another digit, value at most 255. -/
def ipv4Field (field : List Char) : Bool :=
  match parseDigits field 0 with
  | none => false
  | some v =>
    decide (field ≠ []) && decide (v ≤ 255) &&
      (decide (field.length = 1) || decide (field.head? ≠ some '0'))

/-- Whether the characters are a dotted IPv4 address, as `netip.ParseAddr`
decides it: four fields between three dots. -/
def parseIPv4 (cs : List Char) : Bool :=
  decide ((splitRunes '.' cs).length = 4) && (splitRunes '.' cs).all ipv4Field

/-- Whether the character is a hexadecimal digit. -/
def isHexDigit (c : Char) : Bool :=
  (48 ≤ c.toNat && c.toNat ≤ 57) || (97 ≤ c.toNat && c.toNat ≤ 102) ||
    (65 ≤ c.toNat && c.toNat ≤ 70)

/-- The loop of the IPv6 parser of `netip.ParseAddr`: `i` is the number of
bytes of the address filled so far and `ellipsis` whether a `::` has been
seen.  The result is the state at the exit of the loop, `none` for an error.
Each pass fills two bytes at least, so eight passes exhaust the address. -/
def ipv6Loop : Nat → Nat → Bool → List Char → Option (Nat × Bool × List Char)
  | 0, i, ellipsis, cs => some (i, ellipsis, cs)
  | fuel + 1, i, ellipsis, cs =>
    if ¬ i < 16 then some (i, ellipsis, cs)
    else if (cs.takeWhile isHexDigit).length = 0 ∨ 4 < (cs.takeWhile isHexDigit).length then none
    else
      match cs.dropWhile isHexDigit with
      | [] => some (i + 2, ellipsis, [])
      | c :: rest =>
        if c = '.' then
          if (ellipsis = false ∧ i ≠ 12) ∨ 16 < i + 4 then none
          else if parseIPv4 cs then some (i + 4, ellipsis, []) else none
        else if c ≠ ':' then none
        else
          match rest with
          | [] => none
          | c' :: rest' =>
            if c' = ':' then
              if ellipsis then none
              else if rest' = [] then some (i + 2, true, [])
              else ipv6Loop fuel (i + 2) true rest'
            else ipv6Loop fuel (i + 2) ellipsis (c' :: rest')

/-- Whether the characters are an IPv6 address without a zone, as
`netip.ParseAddr` decides it. -/
def parseIPv6 (cs : List Char) : Bool :=
  if '%' ∈ cs then false
  else
    match cs with
    | ':' :: ':' :: [] => true
    | ':' :: ':' :: rest =>
      match ipv6Loop 8 0 true rest with
      | some (i, _, []) => decide (i < 16)
      | _ => false
    | _ =>
      match ipv6Loop 8 0 false cs with
      | some (i, ellipsis, []) => if i < 16 then ellipsis else !ellipsis
      | _ => false

/-- Whether `net.ParseIP` returns an address (not `nil`): the first of the
characters `.`, `:` and `%` in the string chooses the parser, as in
`netip.ParseAddr`, and an address with a zone is not accepted. -/
def ParseIP (s : String) : Bool :=
  match s.data.find? (fun c => c = '.' ∨ c = ':' ∨ c = '%') with
  | none => false
  | some c => if c = '.' then parseIPv4 s.data else if c = ':' then parseIPv6 s.data else false

/-- The method `ApplyDefaults`. -/
def Config.ApplyDefaults (c : Config) : Config :=
  let c1 := if TrimSpace c.Server.Host = "" then
    { c with Server := { c.Server with Host := DefaultHost } } else c
  let c2 := if c1.Server.Port = 0 then
    { c1 with Server := { c1.Server with Port := DefaultPort } } else c1
  if TrimSpace c2.Metrics.Prefix = "" then
    { c2 with Metrics := { c2.Metrics with Prefix := DefaultPrefix } } else c2

/-- The errors of `Validate`, one constructor for each `fmt.Errorf` of the
method; `i` is the index of the node. -/
inductive ValidateError where
  | hostRequired
  | hostNotIP
  | hostNotAllowed
  | portOutOfRange
  | noNodes
  | nodeNameRequired (i : Nat)
  | nodeEndpointNotIP (i : Nat)
  deriving DecidableEq, Repr

/-- The loop over the nodes in `Validate`, from the node of index `i` on. -/
def validateNodes : Nat → List NodeConfig → Option ValidateError
  | _, [] => none
  | i, node :: rest =>
    if TrimSpace node.Name = "" then some (ValidateError.nodeNameRequired i)
    else if ParseIP (TrimSpace node.Endpoint) = false then
      some (ValidateError.nodeEndpointNotIP i)
    else validateNodes (i + 1) rest

/-- The method `Validate`: `none` is the `nil` error. -/
def Config.Validate (c : Config) : Option ValidateError :=
  let host := TrimSpace c.Server.Host
  if host = "" then some ValidateError.hostRequired
  else if ParseIP host = false then some ValidateError.hostNotIP
  else if host ≠ "127.0.0.1" ∧ host ≠ "0.0.0.0" then some ValidateError.hostNotAllowed
  else if c.Server.Port ≤ 0 ∨ c.Server.Port > 65535 then some ValidateError.portOutOfRange
  else if c.Nodes.length = 0 then some ValidateError.noNodes
  else validateNodes 0 c.Nodes

/-- The errors of `Load`. -/
inductive LoadError where
  | readFile
  | parseYAML
  | validate (err : ValidateError)
  deriving DecidableEq, Repr

/-- The function `Load`, given what `os.ReadFile` and `yaml.Unmarshal` make of
the file: `none` when the file cannot be read, `some none` when its content
is not a YAML document of the configuration, and the decoded `Config` otherwise. -/
def Load (file : Option (Option Config)) : Except LoadError Config :=
  match file with
  | none => Except.error LoadError.readFile
  | some none => Except.error LoadError.parseYAML
  | some (some cfg) =>
    match cfg.ApplyDefaults.Validate with
    | some err => Except.error (LoadError.validate err)
    | none => Except.ok cfg.ApplyDefaults

/-- A configuration with one node whose endpoint is written with blanks around it. -/
def paddedConfig : Config :=
  { Server := { Host := "127.0.0.1", Port := 9100 }
    Metrics := { Prefix := "ipscope" }
    Nodes := [{ Name := "edge-1", Endpoint := " 203.0.113.7 " }] }

/-! ## The exporter (`internal/metrics/exporter.go`) -/

/-- The function `strconv.FormatFloat(value, 'f', 6, 64)` on the bit pattern of
the `float64`: the sign, the integer part and six decimals of the value, which
is rounded to the nearest multiple of `10^-6`, to the even one of two equally
near; `NaN`, `+Inf` and `-Inf` for the values that are not finite. -/
def formatFixed6 (bits : Nat) : String :=
  let sign := bits / 2 ^ 63 % 2
  let expo := bits / 2 ^ 52 % 2048
  let frac := bits % 2 ^ 52
  if expo = 2047 then
    if frac ≠ 0 then "NaN" else if sign = 1 then "-Inf" else "+Inf"
  else
    let mant := if expo = 0 then frac else frac + 2 ^ 52
    let e := if expo = 0 then 1 else expo
    -- the value is `mant * 2 ^ (e - 1075)`; `q` is the value in millionths, rounded
    let num := (mant * 10 ^ 6) <<< (e - 1075)
    let den := 1 <<< (1075 - e)
    let q0 := num >>> (1075 - e)
    let r := num - q0 <<< (1075 - e)
    let q := if den < 2 * r ∨ (2 * r = den ∧ q0 % 2 = 1) then q0 + 1 else q0
    String.mk ((if sign = 1 then ['-'] else []) ++ Nat.toDigits 10 (q / 10 ^ 6) ++ ['.'] ++
      (Nat.toDigits 10 (10 ^ 6 + q % 10 ^ 6)).drop 1)

/-- The function `formatCoordinate`. -/
def formatCoordinate (value : Float64) : String := formatFixed6 value.bits

/-- The function `valueOrUnknown`. -/
def valueOrUnknown (value : String) : String :=
  if TrimSpace value = "" then "unknown" else value

/-- A `prometheus.GaugeVec`: the series of the family in the order of their
creation, each with its label values and its value. -/
abbrev GaugeVec := List (List String × Nat)

/-- The call `WithLabelValues(labels...).Set(value)` on a family: the series
with these label values takes the value, and is created when the family does
not have it. -/
def GaugeVec.Set : GaugeVec → List String → Nat → GaugeVec
  | [], labels, value => [(labels, value)]
  | (l, v) :: rest, labels, value =>
    if l = labels then (l, value) :: rest else (l, v) :: GaugeVec.Set rest labels value

/-- The label values of the series of a family. -/
def GaugeVec.labels (g : GaugeVec) : List (List String) := g.map Prod.fst

/-- The two families of the struct `Exporter`. -/
structure Exporter where
  datacenterInfo : GaugeVec
  resolveErrorFlag : GaugeVec
  deriving DecidableEq, Repr

/-- The families of `NewExporter`, which have no series. -/
def NewExporter : Exporter := { datacenterInfo := [], resolveErrorFlag := [] }

/-- What a call of `Resolver.ResolveDatacenter` returns: the info and the
error (`none` is `nil`). -/
structure Resolved (ε : Type) where
  info : DatacenterInfo
  err : Option ε
  deriving DecidableEq, Repr

/-- The error `resolve node %q (%s): %w` that `Refresh` makes of the error of
the resolver for a node. -/
structure NodeError (ε : Type) where
  Name : String
  Endpoint : String
  err : ε
  deriving DecidableEq, Repr

/-- What `Refresh` does to the world, in order: calls of the resolver and
writes to the two families. -/
inductive Effect where
  | resolve (endpoint : String)
  | setErrorFlag (labels : List String) (value : Nat)
  | setInfo (labels : List String) (value : Nat)
  deriving DecidableEq, Repr

/-- The state at the end of the loop of `Refresh`: the state of the resolver,
the families, the errors collected in `errs` and the effects in order. -/
structure RefreshRun (σ ε : Type) where
  resolver : σ
  exporter : Exporter
  errs : List (NodeError ε)
  trace : List Effect

/-- The info that `Refresh` substitutes when the resolution fails. -/
def unknownInfo : DatacenterInfo :=
  { Datacenter := "unknown", City := "unknown", Region := "unknown", Country := "unknown",
    Latitude := ⟨0⟩, Longitude := ⟨0⟩ }

/-- The label values that `Refresh` gives the identity gauge for a node and an info. -/
def infoLabels (node : NodeConfig) (info : DatacenterInfo) : List String :=
  [node.Name, node.Endpoint, info.Datacenter, valueOrUnknown info.City,
    valueOrUnknown info.Region, valueOrUnknown info.Country,
    formatCoordinate info.Latitude, formatCoordinate info.Longitude]

/-- The loop of `Refresh` over the nodes, for a resolver that is a function of
its own state `σ` and the endpoint. -/
def Exporter.refreshLoop {σ ε : Type} (resolve : σ → String → σ × Resolved ε) :
    σ → Exporter → List NodeConfig → RefreshRun σ ε
  | s, e, [] => { resolver := s, exporter := e, errs := [], trace := [] }
  | s, e, node :: rest =>
    let r := resolve s node.Endpoint
    match r.2.err with
    | some err =>
      let info := unknownInfo
      let e1 : Exporter :=
        { e with resolveErrorFlag := GaugeVec.Set e.resolveErrorFlag [node.Name, node.Endpoint] 1 }
      let e2 : Exporter :=
        { e1 with datacenterInfo := GaugeVec.Set e1.datacenterInfo (infoLabels node info) 1 }
      let run := Exporter.refreshLoop resolve r.1 e2 rest
      { run with
        errs := { Name := node.Name, Endpoint := node.Endpoint, err := err } :: run.errs
        trace := Effect.resolve node.Endpoint ::
          Effect.setErrorFlag [node.Name, node.Endpoint] 1 ::
          Effect.setInfo (infoLabels node info) 1 :: run.trace }
    | none =>
      let info := r.2.info
      let e1 : Exporter :=
        { e with resolveErrorFlag := GaugeVec.Set e.resolveErrorFlag [node.Name, node.Endpoint] 0 }
      let e2 : Exporter :=
        { e1 with datacenterInfo := GaugeVec.Set e1.datacenterInfo (infoLabels node info) 1 }
      let run := Exporter.refreshLoop resolve r.1 e2 rest
      { run with
        trace := Effect.resolve node.Endpoint ::
          Effect.setErrorFlag [node.Name, node.Endpoint] 0 ::
          Effect.setInfo (infoLabels node info) 1 :: run.trace }

/-- The function `errors.Join` on errors none of which is `nil`: `nil` for no
error, and otherwise the error that wraps them in order. -/
def errorsJoin {α : Type} (errs : List α) : Option (List α) :=
  match errs with
  | [] => none
  | _ :: _ => some errs

/-- What a call of `Refresh` leaves and returns. -/
structure RefreshResult (σ ε : Type) where
  resolver : σ
  exporter : Exporter
  trace : List Effect
  err : Option (List (NodeError ε))

/-- The method `Refresh`. -/
def Exporter.Refresh {σ ε : Type} (resolve : σ → String → σ × Resolved ε)
    (s : σ) (e : Exporter) (nodes : List NodeConfig) : RefreshResult σ ε :=
  let run := Exporter.refreshLoop resolve s e nodes
  { resolver := run.resolver, exporter := run.exporter, trace := run.trace,
    err := errorsJoin run.errs }

/-- What the resolver returns to the calls for the nodes, in order, from the
state `s` of the resolver. -/
def resolutions {σ ε : Type} (resolve : σ → String → σ × Resolved ε) :
    σ → List NodeConfig → List (Resolved ε)
  | _, [] => []
  | s, node :: rest =>
    (resolve s node.Endpoint).2 :: resolutions resolve (resolve s node.Endpoint).1 rest

/-- The info whose labels `Refresh` writes for a resolution. -/
def writtenInfo {ε : Type} (r : Resolved ε) : DatacenterInfo :=
  match r.err with
  | some _ => unknownInfo
  | none => r.info

/-- The value that `Refresh` writes to the error flag for a resolution. -/
def writtenFlag {ε : Type} (r : Resolved ε) : Nat :=
  match r.err with
  | some _ => 1
  | none => 0

/-- The endpoints of the calls of the resolver in a trace. -/
def resolverCalls : List Effect → List String
  | [] => []
  | Effect.resolve endpoint :: rest => endpoint :: resolverCalls rest
  | _ :: rest => resolverCalls rest

/-- The writes to the error-flag gauge in a trace. -/
def errorFlagWrites : List Effect → List (List String × Nat)
  | [] => []
  | Effect.setErrorFlag labels value :: rest => (labels, value) :: errorFlagWrites rest
  | _ :: rest => errorFlagWrites rest

/-- The writes to the identity gauge in a trace. -/
def infoWrites : List Effect → List (List String × Nat)
  | [] => []
  | Effect.setInfo labels value :: rest => (labels, value) :: infoWrites rest
  | _ :: rest => infoWrites rest

/-- The state of the resolver and the families after `k` calls of `Refresh`
on the same nodes, from the state `s` and the families `e`. -/
def refreshTimes {σ ε : Type} (resolve : σ → String → σ × Resolved ε)
    (nodes : List NodeConfig) : Nat → σ → Exporter → σ × Exporter
  | 0, s, e => (s, e)
  | k + 1, s, e =>
    refreshTimes resolve nodes k (Exporter.Refresh resolve s e nodes).resolver
      (Exporter.Refresh resolve s e nodes).exporter

/-- A resolver for the examples: its state counts the calls, and the call of
number `k` succeeds with the info of Paris when `fails k` is false. -/
def fakeResolver (fails : Nat → Bool) (k : Nat) (_endpoint : String) : Nat × Resolved String :=
  (k + 1,
    if fails k then { info := unknownInfo, err := some "timeout" }
    else
      { info :=
          { Datacenter := "ACME", City := "Paris", Region := "", Country := "France",
            Latitude := ⟨0x40486E147AE147AE⟩, Longitude := ⟨0x4002CCCCCCCCCCCD⟩ }
        err := none })

/-- The nodes of the examples. -/
def sampleNodes : List NodeConfig :=
  [{ Name := "edge-1", Endpoint := "203.0.113.7" }, { Name := "edge-2", Endpoint := "198.51.100.9" }]

/-- A resolver other than the client, for an example: it succeeds with an info
whose label and city are empty and whose region is blank. -/
def blankResolver (_s : Unit) (_endpoint : String) : Unit × Resolved String :=
  ((),
    { info :=
        { Datacenter := "", City := "", Region := "  ", Country := "France",
          Latitude := ⟨0x40486E147AE147AE⟩, Longitude := ⟨0x4002CCCCCCCCCCCD⟩ }
      err := none })

/-- The label values of a family after writes with the label values `ws`, in
order, on a family whose series have the label values `acc`: a write creates
a series when the family has none with its label values. -/
def addLabels (acc : List (List String)) (ws : List (List String)) : List (List String) :=
  ws.foldl (fun acc l => if l ∈ acc then acc else acc ++ [l]) acc

/-- The call of `Refresh` of number `k + 1` on the same nodes, the families
being empty and the resolver in the state `s` before the first call. -/
def nthRefresh {σ ε : Type} (resolve : σ → String → σ × Resolved ε)
    (nodes : List NodeConfig) (k : Nat) (s : σ) : RefreshResult σ ε :=
  Exporter.Refresh resolve (refreshTimes resolve nodes k s NewExporter).1
    (refreshTimes resolve nodes k s NewExporter).2 nodes

/-- What every call of `Refresh` keeps of the families: no two series of a
family have the same label values, and every series is a series of a node of
the list. -/
def FamiliesOf (nodes : List NodeConfig) (e : Exporter) : Prop :=
  (GaugeVec.labels e.resolveErrorFlag).Nodup ∧
  (GaugeVec.labels e.datacenterInfo).Nodup ∧
  (∀ x ∈ GaugeVec.labels e.resolveErrorFlag, ∃ n ∈ nodes, x = [n.Name, n.Endpoint]) ∧
  (∀ x ∈ GaugeVec.labels e.datacenterInfo, ∃ n ∈ nodes, x.take 2 = [n.Name, n.Endpoint])

/-! ## Lemmas on the gate -/

theorem nextWaitDuration_blockedUntil (c : APIClient) (now : Int) :
    (c.nextWaitDuration now).1.blockedUntil = c.blockedUntil := by
  unfold APIClient.nextWaitDuration
  dsimp only
  split_ifs <;> rfl

theorem nextWaitDuration_minInterval (c : APIClient) (now : Int) :
    (c.nextWaitDuration now).1.minInterval = c.minInterval := by
  unfold APIClient.nextWaitDuration
  dsimp only
  split_ifs <;> rfl

theorem nextWaitDuration_nonneg (c : APIClient) (now : Int) :
    0 ≤ (c.nextWaitDuration now).2 := by
  unfold APIClient.nextWaitDuration
  simp only [Time.After, Time.Sub, Time.Add, Time.IsZero, minDuration, maxDuration,
    decide_eq_true_eq]
  split_ifs <;> simp <;> omega

theorem nextWaitDuration_pos_unchanged (c : APIClient) (now : Int)
    (h : 0 < (c.nextWaitDuration now).2) : (c.nextWaitDuration now).1 = c := by
  unfold APIClient.nextWaitDuration at h ⊢
  dsimp only at h ⊢
  split_ifs at h ⊢ <;> simp_all

theorem nextWaitDuration_blocked (c : APIClient) (now : Int) (h : now < c.blockedUntil) :
    0 < (c.nextWaitDuration now).2 := by
  unfold APIClient.nextWaitDuration
  simp only [Time.After, Time.Sub, minDuration, maxDuration, decide_eq_true_eq, h, if_true]
  split_ifs <;> omega

theorem applyRateLimitWindow_parsed (c : APIClient) (now : Int) (xTTL : String) (t : Int)
    (hparse : Atoi (TrimSpace xTTL) = some t) (hpos : 0 < t) :
    c.applyRateLimitWindow now xTTL =
      { c with blockedUntil := max c.blockedUntil (now + wrapInt64 (t * Second)) } := by
  unfold APIClient.applyRateLimitWindow
  simp only [hparse, Time.After, Time.Add, decide_eq_true_eq]
  rw [if_neg (not_le.mpr hpos)]
  split_ifs with h
  · rw [max_eq_right (by omega)]
  · rw [max_eq_left (by omega)]

theorem applyRateLimitWindow_blockedUntil_le (c : APIClient) (now : Int) (xTTL : String) :
    c.blockedUntil ≤ (c.applyRateLimitWindow now xTTL).blockedUntil := by
  unfold APIClient.applyRateLimitWindow
  simp only [Time.After, Time.Add, decide_eq_true_eq]
  split
  · exact le_refl _
  · split_ifs with h1 h2
    · exact le_refl _
    · exact le_of_lt h2
    · exact le_refl _

theorem applyRemainingWindow_blockedUntil_le (c : APIClient) (now : Int) (xRL xTTL : String) :
    c.blockedUntil ≤ (c.applyRemainingWindow now xRL xTTL).blockedUntil := by
  unfold APIClient.applyRemainingWindow
  split_ifs
  · exact le_refl _
  · exact applyRateLimitWindow_blockedUntil_le c now xTTL

theorem afterCalls_blockedUntil_le (calls : List GateCall) :
    ∀ c : APIClient, c.blockedUntil ≤ (c.afterCalls calls).blockedUntil := by
  induction calls with
  | nil => intro c; exact le_refl _
  | cons call rest ih =>
    intro c
    cases call with
    | nextWait now =>
      have h := ih (c.nextWaitDuration now).1
      rw [nextWaitDuration_blockedUntil] at h
      exact h
    | rateLimit now xTTL =>
      exact le_trans (applyRateLimitWindow_blockedUntil_le c now xTTL) (ih _)
    | remaining now xRL xTTL =>
      exact le_trans (applyRemainingWindow_blockedUntil_le c now xRL xTTL) (ih _)

theorem wrapInt64_of_range (x : Int) (h0 : -(2 ^ 63) ≤ x) (h1 : x ≤ 2 ^ 63 - 1) :
    wrapInt64 x = x := by
  unfold wrapInt64
  omega


theorem atoi_five : Atoi (TrimSpace "5") = some 5 := by decide

theorem atoi_two : Atoi (TrimSpace "2") = some 2 := by decide

theorem atoi_thirty : Atoi (TrimSpace "30") = some 30 := by decide

/-- What a granting call leaves behind, for the spacing of the grants: the
chain of the grants that follow, and the distance of the first of them from a
set `lastRequest`. -/
theorem grants_spacing_aux (calls : List GateCall) :
    ∀ c : APIClient, 0 ≤ c.minInterval →
      (∀ now ∈ waitReadings calls, Time.IsZero now = false) →
      List.Chain' (fun g g' => g + c.minInterval ≤ g') (c.grants calls) ∧
      (c.lastRequest ≠ 0 → ∀ g ∈ (c.grants calls).head?, c.lastRequest + c.minInterval ≤ g) := by
  induction calls with
  | nil => intro c _ _; simp [APIClient.grants]
  | cons call rest ih =>
    intro c hm hclock
    cases call with
    | rateLimit now xTTL =>
      have hc : (c.applyRateLimitWindow now xTTL).minInterval = c.minInterval ∧
          (c.applyRateLimitWindow now xTTL).lastRequest = c.lastRequest := by
        unfold APIClient.applyRateLimitWindow
        split
        · exact ⟨rfl, rfl⟩
        · dsimp only; split_ifs <;> exact ⟨rfl, rfl⟩
      have h := ih (c.applyRateLimitWindow now xTTL) (by rw [hc.1]; exact hm)
        (fun n hn => hclock n (by simpa [waitReadings] using hn))
      rw [hc.1, hc.2] at h
      simpa [APIClient.grants] using h
    | remaining now xRL xTTL =>
      have hc : (c.applyRemainingWindow now xRL xTTL).minInterval = c.minInterval ∧
          (c.applyRemainingWindow now xRL xTTL).lastRequest = c.lastRequest := by
        unfold APIClient.applyRemainingWindow APIClient.applyRateLimitWindow
        split_ifs
        · exact ⟨rfl, rfl⟩
        · split
          · exact ⟨rfl, rfl⟩
          · dsimp only; split_ifs <;> exact ⟨rfl, rfl⟩
      have h := ih (c.applyRemainingWindow now xRL xTTL) (by rw [hc.1]; exact hm)
        (fun n hn => hclock n (by simpa [waitReadings] using hn))
      rw [hc.1, hc.2] at h
      simpa [APIClient.grants] using h
    | nextWait now =>
      have hnow : now ≠ 0 := by
        have := hclock now (by simp [waitReadings])
        simpa [Time.IsZero] using this
      have hmi := nextWaitDuration_minInterval c now
      have h := ih (c.nextWaitDuration now).1 (by rw [hmi]; exact hm)
        (fun n hn => hclock n (by simp [waitReadings, hn]))
      rw [hmi] at h
      by_cases hw : (c.nextWaitDuration now).2 ≤ 0
      · -- the call grants: `lastRequest` is stamped with `now`
        have hstamp : (c.nextWaitDuration now).1.lastRequest = now ∧
            (c.lastRequest ≠ 0 → c.lastRequest + c.minInterval ≤ now) := by
          have hb : ¬ now < c.blockedUntil := fun hb =>
            absurd (nextWaitDuration_blocked c now hb) (not_lt.mpr hw)
          unfold APIClient.nextWaitDuration at hw ⊢
          simp only [Time.After, Time.IsZero, Time.Add, Time.Sub, minDuration, maxDuration,
            decide_eq_true_eq, hb, if_false] at hw ⊢
          split_ifs at hw ⊢ <;> first
            | (constructor
               · rfl
               · intro h0; omega)
            | omega
        rw [hstamp.1] at h
        have hg : c.grants (GateCall.nextWait now :: rest) =
            now :: (c.nextWaitDuration now).1.grants rest := by
          simp [APIClient.grants, hw]
        rw [hg]
        refine ⟨List.chain'_cons'.mpr ⟨h.2 hnow, h.1⟩, ?_⟩
        intro h0 g hgm
        simp only [List.head?_cons, Option.mem_def, Option.some.injEq] at hgm
        rw [← hgm]
        exact hstamp.2 h0
      · -- the call does not grant: the state is unchanged
        have hsame := nextWaitDuration_pos_unchanged c now (not_le.mp hw)
        have hg : c.grants (GateCall.nextWait now :: rest) =
            (c.nextWaitDuration now).1.grants rest := by
          simp [APIClient.grants, hw]
        rw [hg]
        rw [hsame] at h ⊢
        exact h

/-! ## Lemmas on the strings -/

theorem isSpace_lowerRune (c : Char) (h : isSpace c = true) : lowerRune c = c := by
  unfold isSpace at h
  unfold lowerRune
  simp only [Bool.or_eq_true, beq_iff_eq, Bool.and_eq_true, decide_eq_true_eq] at h
  split_ifs <;> first | rfl | omega

theorem dropWhile_append_cons (p : Char → Bool) (a : Char) (rest : List Char)
    (ha : p a = false) :
    ∀ pre : List Char, ∃ pre', (pre ++ a :: rest).dropWhile p = pre' ++ a :: rest := by
  intro pre
  induction pre with
  | nil => exact ⟨[], by simp [List.dropWhile, ha]⟩
  | cons b pre ih =>
    by_cases hb : p b = true
    · obtain ⟨pre', h⟩ := ih
      exact ⟨pre', by simp [List.dropWhile, hb, h]⟩
    · exact ⟨b :: pre, by simp [List.dropWhile, hb]⟩

theorem trimRunes_keeps_block (pre post m1 m2 : List Char) (a z : Char)
    (ha : isSpace a = false) (hz : isSpace z = false) (hmid : a :: m1 = m2 ++ [z]) :
    ∃ pre' post', trimRunes (pre ++ (a :: m1) ++ post) = pre' ++ (a :: m1) ++ post' := by
  obtain ⟨pre', h1⟩ := dropWhile_append_cons isSpace a (m1 ++ post) ha pre
  have h2 : (pre' ++ a :: (m1 ++ post)).reverse = post.reverse ++ z :: (m2.reverse ++ pre'.reverse) := by
    have : pre' ++ a :: (m1 ++ post) = pre' ++ (a :: m1) ++ post := by simp
    rw [this, hmid]
    simp
  obtain ⟨post', h3⟩ := dropWhile_append_cons isSpace z (m2.reverse ++ pre'.reverse) hz post.reverse
  refine ⟨pre', post'.reverse, ?_⟩
  unfold trimRunes
  have h0 : pre ++ (a :: m1) ++ post = pre ++ a :: (m1 ++ post) := by simp
  rw [h0, h1, h2, h3, hmid]
  simp

theorem containsRunes_block (sub ys : List Char) :
    ∀ xs : List Char, containsRunes (xs ++ sub ++ ys) sub = true := by
  intro xs
  induction xs with
  | nil =>
    cases hl : ([] ++ sub ++ ys) with
    | nil =>
      have : sub = [] := by
        cases sub with
        | nil => rfl
        | cons _ _ => simp at hl
      simp [containsRunes, this]
    | cons c cs =>
      unfold containsRunes
      rw [← hl]
      simp
  | cons b xs ih =>
    have : (b :: xs) ++ sub ++ ys = b :: (xs ++ sub ++ ys) := by simp
    rw [this]
    unfold containsRunes
    rw [ih]
    simp

theorem rateLimitText_data :
    rateLimitText.data = 't' :: "oo many requests".data ∧
    rateLimitText.data = "too many request".data ++ ['s'] := by
  decide

/-- The test of `ResolveDatacenter` on the message finds the rate-limit text
wherever the message contains it in some letter case. -/
theorem contains_of_mentions (message : String) (h : MentionsRateLimit message) :
    TrimSpace message ≠ "" ∧
    Contains (ToLower (TrimSpace message)) "too many requests" = true := by
  obtain ⟨pre, mid, post, hdata, hmid⟩ := h
  have hmid1 := hmid
  rw [rateLimitText_data.1] at hmid1
  obtain ⟨a, m1, hm1, ha, _⟩ := List.map_eq_cons_iff.mp hmid1
  have hmid2 : mid.reverse.map lowerRune = 's' :: "too many request".data.reverse := by
    rw [List.map_reverse, hmid, rateLimitText_data.2]
    simp
  obtain ⟨z, r, hr, hz, _⟩ := List.map_eq_cons_iff.mp hmid2
  have hsa : isSpace a = false := by
    by_contra hc
    have := isSpace_lowerRune a (by simpa using hc)
    rw [this] at ha
    rw [ha] at hc
    exact hc (by decide)
  have hsz : isSpace z = false := by
    by_contra hc
    have := isSpace_lowerRune z (by simpa using hc)
    rw [this] at hz
    rw [hz] at hc
    exact hc (by decide)
  have hlast : a :: m1 = r.reverse ++ [z] := by
    rw [← hm1, ← List.reverse_reverse mid, hr]
    simp
  obtain ⟨pre', post', htrim⟩ := trimRunes_keeps_block pre post m1 r.reverse a z hsa hsz hlast
  rw [← hm1, ← hdata] at htrim
  constructor
  · intro hempty
    have : (TrimSpace message).data = [] := by rw [hempty]
    unfold TrimSpace at this
    simp only at this
    rw [htrim, hm1] at this
    simp at this
  · unfold Contains ToLower TrimSpace
    simp only
    rw [htrim, List.map_append, List.map_append, hmid]
    exact containsRunes_block _ _ _

theorem waitForAllowance_blockedUntil (steps : List WaitStep) :
    ∀ c : APIClient, (c.waitForAllowance steps).1.blockedUntil = c.blockedUntil := by
  induction steps with
  | nil => intro c; rfl
  | cons step rest ih =>
    intro c
    unfold APIClient.waitForAllowance
    dsimp only
    split_ifs
    · exact nextWaitDuration_blockedUntil c step.now
    · exact nextWaitDuration_blockedUntil c step.now
    · rw [ih, nextWaitDuration_blockedUntil]

/-! ## The claims on the gate -/

/-- C1: `blockedUntil` never decreases.  `applyRateLimitWindow`,
`applyRemainingWindow` and `nextWaitDuration` each leave `blockedUntil` no
earlier than it was, for every state, clock reading and header string, and so
does every sequence of such calls; and
`applyRateLimitWindow` with TTL "5" at `t1` followed by TTL "2" at an instant
`t2` no more than three seconds later leaves `blockedUntil` where the first
call put it, the later of the old value and `t1` plus five seconds. -/
theorem blockedUntil_never_decreases :
    (∀ (c : APIClient) (now : Int) (xTTL : String),
      c.blockedUntil ≤ (c.applyRateLimitWindow now xTTL).blockedUntil) ∧
    (∀ (c : APIClient) (now : Int) (xRL xTTL : String),
      c.blockedUntil ≤ (c.applyRemainingWindow now xRL xTTL).blockedUntil) ∧
    (∀ (c : APIClient) (now : Int),
      c.blockedUntil ≤ (c.nextWaitDuration now).1.blockedUntil) ∧
    (∀ (c : APIClient) (calls : List GateCall),
      c.blockedUntil ≤ (c.afterCalls calls).blockedUntil) ∧
    (∀ (c : APIClient) (t1 t2 : Int), t2 ≤ t1 + 3 * Second →
      ((c.applyRateLimitWindow t1 "5").applyRateLimitWindow t2 "2").blockedUntil =
        (c.applyRateLimitWindow t1 "5").blockedUntil ∧
      (c.applyRateLimitWindow t1 "5").blockedUntil = max c.blockedUntil (t1 + 5 * Second)) := by
  refine ⟨applyRateLimitWindow_blockedUntil_le, applyRemainingWindow_blockedUntil_le,
    fun c now => le_of_eq (nextWaitDuration_blockedUntil c now).symm,
    fun c calls => afterCalls_blockedUntil_le calls c, ?_⟩
  intro c t1 t2 h
  rw [applyRateLimitWindow_parsed _ t2 "2" 2 atoi_two (by decide),
    applyRateLimitWindow_parsed c t1 "5" 5 atoi_five (by decide)]
  have h5 : wrapInt64 (5 * Second) = 5 * Second := by decide
  have h2 : wrapInt64 (2 * Second) = 2 * Second := by decide
  rw [h5, h2]
  dsimp only
  refine ⟨?_, rfl⟩
  apply max_eq_left
  apply le_max_of_le_right
  unfold Second at h ⊢
  omega

/-- C1, at an instance: TTL "5" at instant 1000 and then TTL "2" one second later. -/
theorem blockedUntil_never_decreases_witness :
    ((NewAPIClient.applyRateLimitWindow 1000 "5").applyRateLimitWindow 1000001000 "2").blockedUntil
      = (NewAPIClient.applyRateLimitWindow 1000 "5").blockedUntil ∧
    (NewAPIClient.applyRateLimitWindow 1000 "5").blockedUntil
      = max NewAPIClient.blockedUntil (1000 + 5 * Second) :=
  blockedUntil_never_decreases.2.2.2.2 NewAPIClient 1000 1000001000 (by decide)

/-- C2: minimum spacing.  In a gate whose `minInterval` is not negative, along
every sequence of calls of `nextWaitDuration`, `applyRateLimitWindow` and
`applyRemainingWindow` in which `nextWaitDuration` reads the clock (a reading
of `time.Now()` is not the zero `Time`), any two consecutive grants are at
readings at least `minInterval` apart.  The readings need not even be
non-decreasing. -/
theorem grants_min_spacing (c : APIClient) (calls : List GateCall)
    (hm : 0 ≤ c.minInterval)
    (hclock : ∀ now ∈ waitReadings calls, Time.IsZero now = false) :
    List.Chain' (fun g g' => g + c.minInterval ≤ g') (c.grants calls) :=
  (grants_spacing_aux calls c hm hclock).1

/-- C2, at an instance: five calls of `nextWaitDuration` and a TTL in between. -/
theorem grants_min_spacing_witness :
    NewAPIClient.grants
        [GateCall.nextWait 5, GateCall.nextWait 6, GateCall.rateLimit 7 "1",
          GateCall.nextWait 1000000006, GateCall.nextWait 1500000005,
          GateCall.nextWait 1500000007, GateCall.nextWait 3000000005]
      = [5, 1500000005, 3000000005] ∧
    List.Chain' (fun g g' => g + NewAPIClient.minInterval ≤ g')
      (NewAPIClient.grants
        [GateCall.nextWait 5, GateCall.nextWait 6, GateCall.rateLimit 7 "1",
          GateCall.nextWait 1000000006, GateCall.nextWait 1500000005,
          GateCall.nextWait 1500000007, GateCall.nextWait 3000000005]) :=
  ⟨by decide, grants_min_spacing NewAPIClient _ (by decide) (by decide)⟩

/-- C3: no grant inside a rate-limit window.  When the TTL header parses as a
positive number `t` of seconds that a duration can hold, then after
`applyRateLimitWindow` at `t0`, and after any further calls on the gate, a
call of `nextWaitDuration` at an instant before `t0` plus `t` seconds returns
a strictly positive wait and leaves the state, `lastRequest` included, as it
was, whatever `lastRequest` and `minInterval` are. -/
theorem no_grant_inside_window (c : APIClient) (t0 now : Int) (xTTL : String) (t : Int)
    (calls : List GateCall)
    (hparse : Atoi (TrimSpace xTTL) = some t) (hpos : 0 < t)
    (hrep : t * Second ≤ maxDuration) (hnow : now < t0 + t * Second) :
    0 < (((c.applyRateLimitWindow t0 xTTL).afterCalls calls).nextWaitDuration now).2 ∧
    (((c.applyRateLimitWindow t0 xTTL).afterCalls calls).nextWaitDuration now).1 =
      (c.applyRateLimitWindow t0 xTTL).afterCalls calls := by
  have hw : wrapInt64 (t * Second) = t * Second := by
    apply wrapInt64_of_range
    · unfold Second; omega
    · unfold maxDuration at hrep; exact hrep
  have h1 : t0 + t * Second ≤ (c.applyRateLimitWindow t0 xTTL).blockedUntil := by
    rw [applyRateLimitWindow_parsed c t0 xTTL t hparse hpos, hw]
    exact le_max_right _ _
  have h2 := afterCalls_blockedUntil_le calls (c.applyRateLimitWindow t0 xTTL)
  have h3 : now < ((c.applyRateLimitWindow t0 xTTL).afterCalls calls).blockedUntil :=
    lt_of_lt_of_le hnow (le_trans h1 h2)
  have h4 := nextWaitDuration_blocked _ now h3
  exact ⟨h4, nextWaitDuration_pos_unchanged _ now h4⟩

/-- C3, at an instance: TTL "30" at instant 1000, a pass of the gate, and a
call two seconds later, long after `minInterval` has elapsed since `lastRequest`. -/
theorem no_grant_inside_window_witness :
    0 < (((({ minInterval := 1, blockedUntil := 0, lastRequest := 7 } :
        APIClient).applyRateLimitWindow 1000 "30").afterCalls
          [GateCall.nextWait 2000]).nextWaitDuration 2000001000).2 ∧
    ((((({ minInterval := 1, blockedUntil := 0, lastRequest := 7 } :
        APIClient).applyRateLimitWindow 1000 "30").afterCalls
          [GateCall.nextWait 2000]).nextWaitDuration 2000001000).1 =
      (({ minInterval := 1, blockedUntil := 0, lastRequest := 7 } :
        APIClient).applyRateLimitWindow 1000 "30").afterCalls [GateCall.nextWait 2000]) :=
  no_grant_inside_window _ 1000 2000001000 "30" 30 [GateCall.nextWait 2000]
    (by decide) (by decide) (by decide) (by decide)

/-- C4 fails as stated: after a grant at one second and a TTL of "1" applied a
millisecond later, the call at two seconds waits one millisecond, where the
formula gives the half second left of `minInterval`. -/
theorem nextWaitDuration_not_specWait :
    (((NewAPIClient.nextWaitDuration 1000000000).1.applyRateLimitWindow 1001000000
        "1").nextWaitDuration 2000000000).2 = 1000000 ∧
    specWait ((NewAPIClient.nextWaitDuration 1000000000).1.applyRateLimitWindow 1001000000 "1")
        2000000000 = 500000000 := by
  decide

/-- C4, amended: the wait of `nextWaitDuration` is `blockedUntil - now` when
`blockedUntil` is after `now`, and otherwise it is the maximum of the
specification, `max(blockedUntil - now, (lastRequest + minInterval) - now, 0)`
with no term for an unset `lastRequest`. -/
theorem nextWaitDuration_wait (c : APIClient) (now : Int) :
    (c.nextWaitDuration now).2 =
      if Time.After c.blockedUntil now then Time.Sub c.blockedUntil now
      else specWait c now := by
  unfold APIClient.nextWaitDuration specWait
  simp only [Time.After, Time.IsZero, Time.Add, Time.Sub, minDuration, maxDuration,
    decide_eq_true_eq]
  split_ifs <;> simp only [max_def] <;> split_ifs <;> omega

/-- C5: when the TTL header parses, after trimming, as a positive integer `t`,
`applyRateLimitWindow` at `now` sets `blockedUntil` to the later of its old
value and `now` plus the duration `time.Duration(t) * time.Second`, the
`int64` product of `t` and `10^9`, and leaves the other fields as they were. -/
theorem applyRateLimitWindow_positive (c : APIClient) (now : Int) (xTTL : String) (t : Int)
    (hparse : Atoi (TrimSpace xTTL) = some t) (hpos : 0 < t) :
    (c.applyRateLimitWindow now xTTL).blockedUntil =
      max c.blockedUntil (now + ((t * 10 ^ 9 + 2 ^ 63) % 2 ^ 64 - 2 ^ 63)) ∧
    (c.applyRateLimitWindow now xTTL).lastRequest = c.lastRequest ∧
    (c.applyRateLimitWindow now xTTL).minInterval = c.minInterval := by
  rw [applyRateLimitWindow_parsed c now xTTL t hparse hpos]
  exact ⟨rfl, rfl, rfl⟩

/-- C5, at an instance: a TTL of " 30 " on the new client at instant 1000, and
a TTL whose product with `10^9` leaves the range of `int64`. -/
theorem applyRateLimitWindow_positive_witness :
    ((NewAPIClient.applyRateLimitWindow 1000 " 30 ").blockedUntil =
        max NewAPIClient.blockedUntil (1000 + ((30 * 10 ^ 9 + 2 ^ 63) % 2 ^ 64 - 2 ^ 63)) ∧
      (NewAPIClient.applyRateLimitWindow 1000 " 30 ").lastRequest = NewAPIClient.lastRequest ∧
      (NewAPIClient.applyRateLimitWindow 1000 " 30 ").minInterval = NewAPIClient.minInterval) ∧
    (NewAPIClient.applyRateLimitWindow 1000 " 30 ").blockedUntil = 30000001000 ∧
    (NewAPIClient.applyRateLimitWindow 1000 "9223372037").blockedUntil = 0 :=
  ⟨applyRateLimitWindow_positive NewAPIClient 1000 " 30 " 30 (by decide) (by decide),
    by decide, by decide⟩

/-- C6: when the TTL header does not parse as an integer, or parses as zero or
a negative integer, `applyRateLimitWindow` returns the state it was given,
all three fields; the method has no error to report. -/
theorem applyRateLimitWindow_noop (c : APIClient) (now : Int) (xTTL : String)
    (h : Atoi (TrimSpace xTTL) = none ∨ ∃ t, Atoi (TrimSpace xTTL) = some t ∧ t ≤ 0) :
    c.applyRateLimitWindow now xTTL = c := by
  unfold APIClient.applyRateLimitWindow
  rcases h with h | ⟨t, h, ht⟩
  · rw [h]
  · rw [h]
    dsimp only
    rw [if_pos ht]

/-- C6, at instances: the empty header, a word, zero, a negative number, and
digits beyond the range of `int`. -/
theorem applyRateLimitWindow_noop_witness :
    NewAPIClient.applyRateLimitWindow 1000 "" = NewAPIClient ∧
    NewAPIClient.applyRateLimitWindow 1000 "soon" = NewAPIClient ∧
    NewAPIClient.applyRateLimitWindow 1000 "0" = NewAPIClient ∧
    NewAPIClient.applyRateLimitWindow 1000 " -3" = NewAPIClient ∧
    NewAPIClient.applyRateLimitWindow 1000 "9223372036854775808" = NewAPIClient :=
  ⟨applyRateLimitWindow_noop _ _ _ (Or.inl (by decide)),
    applyRateLimitWindow_noop _ _ _ (Or.inl (by decide)),
    applyRateLimitWindow_noop _ _ _ (Or.inr ⟨0, by decide, by decide⟩),
    applyRateLimitWindow_noop _ _ _ (Or.inr ⟨-3, by decide, by decide⟩),
    applyRateLimitWindow_noop _ _ _ (Or.inl (by decide))⟩

/-- C7: cancellation leaves the gate as it was.  Every run of
`waitForAllowance` that ends with the cancellation error returns the state it
started from, and every call of `nextWaitDuration` that returns a positive
wait returns the state it was given. -/
theorem cancelled_wait_keeps_state :
    (∀ (c c' : APIClient) (steps : List WaitStep),
      c.waitForAllowance steps = (c', WaitOutcome.cancelled) → c' = c) ∧
    (∀ (c : APIClient) (now : Int),
      0 < (c.nextWaitDuration now).2 → (c.nextWaitDuration now).1 = c) := by
  refine ⟨?_, nextWaitDuration_pos_unchanged⟩
  intro c c' steps
  induction steps with
  | nil => intro h; simp [APIClient.waitForAllowance] at h
  | cons step rest ih =>
    intro h
    unfold APIClient.waitForAllowance at h
    dsimp only at h
    by_cases hw : (c.nextWaitDuration step.now).2 ≤ 0
    · rw [if_pos hw] at h
      simp at h
    · rw [if_neg hw, nextWaitDuration_pos_unchanged c step.now (not_le.mp hw)] at h
      by_cases hd : step.done = true
      · rw [if_pos hd] at h
        exact (Prod.mk.inj h).1.symm
      · rw [if_neg hd] at h
        exact ih h

/-- C7, at an instance: a gate blocked until instant 5000, a wait that the
timer ends at instant 1000, and a second wait cut by the cancellation. -/
theorem cancelled_wait_keeps_state_witness :
    ({ minInterval := 1500, blockedUntil := 5000, lastRequest := 10 } :
        APIClient).waitForAllowance [⟨1000, false⟩, ⟨2000, true⟩] =
      ({ minInterval := 1500, blockedUntil := 5000, lastRequest := 10 }, WaitOutcome.cancelled) ∧
    (({ minInterval := 1500, blockedUntil := 5000, lastRequest := 10 } :
        APIClient).waitForAllowance [⟨1000, false⟩, ⟨2000, true⟩]).1 =
      { minInterval := 1500, blockedUntil := 5000, lastRequest := 10 } :=
  ⟨by decide,
    cancelled_wait_keeps_state.1 { minInterval := 1500, blockedUntil := 5000, lastRequest := 10 }
      _ [⟨1000, false⟩, ⟨2000, true⟩] (by decide)⟩

/-! ## The claims on the resolver -/

/-- C8 fails as stated: a response with the 2xx status 201 whose body has the
status "fail" and the rate-limit text as its message gets the status-code
error, which carries no header value, and the gate keeps its `blockedUntil`
although `X-Ttl` is "30". -/
theorem throttled_201_not_rate_limited :
    NewAPIClient.ResolveDatacenter
        (exchangeWith { StatusCode := 201, XRl := "0", XTtl := "30", Body := some throttledBody })
      = some ({ NewAPIClient with lastRequest := 1000 },
          Except.error (ResolveError.status 201)) := by
  decide

/-- C8, amended (status 200 in place of 2xx): in a call that gets its turn and
a response, a response with status 429, and a response with status 200 whose
body has a status other than "success" and a message that contains the
rate-limit text in some letter case, make `ResolveDatacenter` fail with a
rate-limited error that carries the values of `X-Rl` and `X-Ttl` as received,
the gate having gone through `applyRateLimitWindow` with the value of `X-Ttl`;
for a 429 with `X-Ttl` "30", `blockedUntil` afterwards is the later of its old
value and the clock reading plus thirty seconds. -/
theorem throttling_is_rate_limited (c c0 : APIClient) (x : Exchange) (resp : Response)
    (hwait : c.waitForAllowance x.waits = (c0, WaitOutcome.granted))
    (hreq : x.requestOK = true) (hresp : x.response = some resp) :
    (resp.StatusCode = 429 →
      c.ResolveDatacenter x = some (c0.applyRateLimitWindow x.nowLimit resp.XTtl,
        Except.error (ResolveError.rateLimitedStatus 429 resp.XRl resp.XTtl))) ∧
    (∀ parsed : ipAPIResponse, resp.StatusCode = 200 → resp.Body = some parsed →
      parsed.Status ≠ "success" → MentionsRateLimit parsed.Message →
      c.ResolveDatacenter x = some
        ((c0.applyRemainingWindow x.nowRemaining resp.XRl resp.XTtl).applyRateLimitWindow
            x.nowLimit resp.XTtl,
          Except.error
            (ResolveError.rateLimitedMessage (TrimSpace parsed.Message) resp.XRl resp.XTtl))) ∧
    (resp.StatusCode = 429 → resp.XTtl = "30" →
      ∃ c1 e, c.ResolveDatacenter x = some (c1, Except.error e) ∧
        c1.blockedUntil = max c.blockedUntil (x.nowLimit + 30 * Second)) := by
  have hrun : c.ResolveDatacenter x = some (c0.handleResponse x resp) := by
    unfold APIClient.ResolveDatacenter
    rw [hwait]
    simp [hreq, hresp]
  have h429 : resp.StatusCode = 429 →
      c0.handleResponse x resp = (c0.applyRateLimitWindow x.nowLimit resp.XTtl,
        Except.error (ResolveError.rateLimitedStatus 429 resp.XRl resp.XTtl)) := by
    intro hs
    unfold APIClient.handleResponse
    simp [hs, StatusOK, StatusTooManyRequests]
  refine ⟨fun hs => by rw [hrun, h429 hs], ?_, ?_⟩
  · intro parsed hs hbody hstatus hmsg
    obtain ⟨hne, hcontains⟩ := contains_of_mentions parsed.Message hmsg
    rw [hrun]
    unfold APIClient.handleResponse
    simp [hs, StatusOK, hbody, hstatus, hne, hcontains]
  · intro hs httl
    refine ⟨_, _, by rw [hrun, h429 hs], ?_⟩
    have hbu : c0.blockedUntil = c.blockedUntil := by
      have := waitForAllowance_blockedUntil x.waits c
      rw [hwait] at this
      exact this
    rw [httl, applyRateLimitWindow_parsed c0 x.nowLimit "30" 30 atoi_thirty (by decide)]
    have h30 : wrapInt64 (30 * Second) = 30 * Second := by decide
    rw [h30, hbu]

/-- C8, amended, at instances: a 429 with `X-Ttl` "30" on the new client, and
a 200 whose body says "fail" with a message in mixed case. -/
theorem throttling_is_rate_limited_witness :
    NewAPIClient.ResolveDatacenter
        (exchangeWith { StatusCode := 429, XRl := "0", XTtl := "30", Body := none })
      = some ({ minInterval := 1500000000, blockedUntil := 30000003000, lastRequest := 1000 },
          Except.error (ResolveError.rateLimitedStatus 429 "0" "30")) ∧
    NewAPIClient.ResolveDatacenter
        (exchangeWith { StatusCode := 200, XRl := "7", XTtl := "30", Body := some throttledBody })
      = some ({ minInterval := 1500000000, blockedUntil := 30000003000, lastRequest := 1000 },
          Except.error
            (ResolveError.rateLimitedMessage "Too Many Requests, slow down" "7" "30")) := by
  have h := throttling_is_rate_limited NewAPIClient { NewAPIClient with lastRequest := 1000 }
    (exchangeWith { StatusCode := 429, XRl := "0", XTtl := "30", Body := none })
    { StatusCode := 429, XRl := "0", XTtl := "30", Body := none }
    (by decide) (by decide) (by decide)
  have h' := throttling_is_rate_limited NewAPIClient { NewAPIClient with lastRequest := 1000 }
    (exchangeWith { StatusCode := 200, XRl := "7", XTtl := "30", Body := some throttledBody })
    { StatusCode := 200, XRl := "7", XTtl := "30", Body := some throttledBody }
    (by decide) (by decide) (by decide)
  refine ⟨(h.1 (by decide)).trans (by decide), ?_⟩
  refine (h'.2.1 throttledBody (by decide) (by decide) (by decide)
    ⟨[' '], "Too Many Requests".data, ", slow down\n".data, by decide, by decide⟩).trans ?_
  decide

/-- C9 fails as stated: a response with status 204, inside 200..299, with a
well-formed successful body, gets the status-code error. -/
theorem success_204_is_status_error :
    NewAPIClient.ResolveDatacenter
        (exchangeWith { StatusCode := 204, XRl := "44", XTtl := "60", Body := some parisBody })
      = some ({ NewAPIClient with lastRequest := 1000 },
          Except.error (ResolveError.status 204)) := by
  decide

/-- C9, amended (status 200 in place of 200..299): in a call that gets its
turn and a response, `ResolveDatacenter` fails with the status-code error
exactly when the status is neither 200 nor 429, and then the error names that
status and the gate is as the wait left it, whatever the headers and the body
are; for status 200 the gate goes through `applyRemainingWindow` with the two
headers and the outcome is that of the body: the decoding error when the body
does not decode, a `DatacenterInfo` when its status is "success", and an
error with the message of the body otherwise. -/
theorem status_classification (c c0 : APIClient) (x : Exchange) (resp : Response)
    (hwait : c.waitForAllowance x.waits = (c0, WaitOutcome.granted))
    (hreq : x.requestOK = true) (hresp : x.response = some resp) :
    ((∃ c1 code, c.ResolveDatacenter x = some (c1, Except.error (ResolveError.status code))) ↔
      (resp.StatusCode ≠ 200 ∧ resp.StatusCode ≠ 429)) ∧
    (resp.StatusCode ≠ 200 → resp.StatusCode ≠ 429 →
      c.ResolveDatacenter x = some (c0, Except.error (ResolveError.status resp.StatusCode))) ∧
    (resp.StatusCode = 200 →
      (resp.Body = none →
        c.ResolveDatacenter x =
          some (c0.applyRemainingWindow x.nowRemaining resp.XRl resp.XTtl,
            Except.error ResolveError.decode)) ∧
      (∀ parsed, resp.Body = some parsed → parsed.Status = "success" →
        ∃ info, c.ResolveDatacenter x =
          some (c0.applyRemainingWindow x.nowRemaining resp.XRl resp.XTtl, Except.ok info)) ∧
      (∀ parsed, resp.Body = some parsed → parsed.Status ≠ "success" →
        ∃ reason,
          c.ResolveDatacenter x =
            some ((c0.applyRemainingWindow x.nowRemaining resp.XRl resp.XTtl).applyRateLimitWindow
                x.nowLimit resp.XTtl,
              Except.error (ResolveError.rateLimitedMessage reason resp.XRl resp.XTtl)) ∨
          c.ResolveDatacenter x =
            some (c0.applyRemainingWindow x.nowRemaining resp.XRl resp.XTtl,
              Except.error (ResolveError.api reason)))) := by
  have hrun : c.ResolveDatacenter x = some (c0.handleResponse x resp) := by
    unfold APIClient.ResolveDatacenter
    rw [hwait]
    simp [hreq, hresp]
  have hother : resp.StatusCode ≠ 200 → resp.StatusCode ≠ 429 →
      c0.handleResponse x resp = (c0, Except.error (ResolveError.status resp.StatusCode)) := by
    intro h1 h2
    unfold APIClient.handleResponse
    simp [h1, h2, StatusOK, StatusTooManyRequests]
  refine ⟨⟨?_, fun h => ⟨c0, resp.StatusCode, by rw [hrun, hother h.1 h.2]⟩⟩,
    fun h1 h2 => by rw [hrun, hother h1 h2], ?_⟩
  · rintro ⟨c1, code, h⟩
    rw [hrun] at h
    unfold APIClient.handleResponse at h
    constructor
    · intro h200
      simp only [h200, StatusOK, ne_eq, not_true_eq_false, if_false] at h
      split at h
      · simp at h
      · split_ifs at h <;> simp at h
    · intro h429
      simp [h429, StatusOK, StatusTooManyRequests] at h
  · intro h200
    rw [hrun]
    unfold APIClient.handleResponse
    refine ⟨fun hb => by simp [h200, StatusOK, hb], fun parsed hb hs => ⟨_, by
      simp only [h200, StatusOK, hb, hs, ne_eq, not_true_eq_false, if_false]
      rfl⟩, ?_⟩
    intro parsed hb hs
    simp only [h200, StatusOK, hb, ne_eq, not_true_eq_false, if_false, hs, not_false_eq_true,
      if_true]
    refine ⟨if TrimSpace parsed.Message = "" then "unknown" else TrimSpace parsed.Message, ?_⟩
    split_ifs <;> first | exact Or.inl rfl | exact Or.inr rfl

/-- C9, amended, at instances: a 503, and a 200 with a successful body. -/
theorem status_classification_witness :
    NewAPIClient.ResolveDatacenter
        (exchangeWith { StatusCode := 503, XRl := "0", XTtl := "30", Body := some parisBody })
      = some ({ NewAPIClient with lastRequest := 1000 },
          Except.error (ResolveError.status 503)) ∧
    ∃ info, NewAPIClient.ResolveDatacenter
        (exchangeWith { StatusCode := 200, XRl := "44", XTtl := "60", Body := some parisBody })
      = some (({ NewAPIClient with lastRequest := 1000 } : APIClient).applyRemainingWindow 2000
          "44" "60", Except.ok info) :=
  ⟨(status_classification NewAPIClient { NewAPIClient with lastRequest := 1000 }
      (exchangeWith { StatusCode := 503, XRl := "0", XTtl := "30", Body := some parisBody })
      { StatusCode := 503, XRl := "0", XTtl := "30", Body := some parisBody }
      (by decide) (by decide) (by decide)).2.1 (by decide) (by decide),
    ((status_classification NewAPIClient { NewAPIClient with lastRequest := 1000 }
      (exchangeWith { StatusCode := 200, XRl := "44", XTtl := "60", Body := some parisBody })
      { StatusCode := 200, XRl := "44", XTtl := "60", Body := some parisBody }
      (by decide) (by decide) (by decide)).2.2 (by decide)).2.1 parisBody (by decide) (by decide)⟩

/-- C10: the zero-remaining asymmetry.  In a call that gets its turn and a
response with status 200 whose body has the status "success",
`ResolveDatacenter` returns the populated `DatacenterInfo` and no error; when
`X-Rl` is "0" after trimming and `X-Ttl` parses as a positive integer `t`,
`blockedUntil` afterwards is the later of its value before the call and the
clock reading plus the duration `time.Duration(t) * time.Second` (which is
`t` seconds whenever a duration can hold them); when `X-Rl` is anything else
after trimming, `blockedUntil` is what it was before the call. -/
theorem success_with_zero_remaining (c c0 : APIClient) (x : Exchange) (resp : Response)
    (parsed : ipAPIResponse)
    (hwait : c.waitForAllowance x.waits = (c0, WaitOutcome.granted))
    (hreq : x.requestOK = true) (hresp : x.response = some resp)
    (hstatus : resp.StatusCode = 200) (hbody : resp.Body = some parsed)
    (hok : parsed.Status = "success") :
    (∃ c1, c.ResolveDatacenter x = some (c1, Except.ok
        { Datacenter := firstNonEmpty
            [parsed.Org, parsed.ISP, parsed.City ++ "-" ++ parsed.RegionName, parsed.City,
              "unknown"]
          City := parsed.City
          Region := parsed.RegionName
          Country := parsed.Country
          Latitude := parsed.Latitude
          Longitude := parsed.Longitude }) ∧
      (∀ t : Int, TrimSpace resp.XRl = "0" → Atoi (TrimSpace resp.XTtl) = some t → 0 < t →
        c1.blockedUntil = max c.blockedUntil (x.nowRemaining + wrapInt64 (t * Second)) ∧
        (t * Second ≤ maxDuration →
          c1.blockedUntil = max c.blockedUntil (x.nowRemaining + t * Second))) ∧
      (TrimSpace resp.XRl ≠ "0" → c1.blockedUntil = c.blockedUntil)) := by
  have hrun : c.ResolveDatacenter x = some (c0.handleResponse x resp) := by
    unfold APIClient.ResolveDatacenter
    rw [hwait]
    simp [hreq, hresp]
  have hbu : c0.blockedUntil = c.blockedUntil := by
    have := waitForAllowance_blockedUntil x.waits c
    rw [hwait] at this
    exact this
  refine ⟨c0.applyRemainingWindow x.nowRemaining resp.XRl resp.XTtl, ?_, ?_, ?_⟩
  · rw [hrun]
    unfold APIClient.handleResponse
    simp only [hstatus, StatusOK, hbody, hok, ne_eq, not_true_eq_false, if_false]
  · intro t hrl hparse hpos
    have h1 : (c0.applyRemainingWindow x.nowRemaining resp.XRl resp.XTtl).blockedUntil =
        max c.blockedUntil (x.nowRemaining + wrapInt64 (t * Second)) := by
      unfold APIClient.applyRemainingWindow
      rw [if_neg (not_not.mpr hrl),
        applyRateLimitWindow_parsed c0 x.nowRemaining resp.XTtl t hparse hpos, hbu]
    refine ⟨h1, fun hrep => ?_⟩
    rw [h1, wrapInt64_of_range]
    · unfold Second; omega
    · unfold maxDuration at hrep; exact hrep
  · intro hrl
    unfold APIClient.applyRemainingWindow
    rw [if_pos hrl, hbu]

/-- C10, at an instance: a successful answer with `X-Rl` "0" and `X-Ttl` "60"
on the new client; the info is returned and the gate is blocked for a minute. -/
theorem success_with_zero_remaining_witness :
    NewAPIClient.ResolveDatacenter
        (exchangeWith { StatusCode := 200, XRl := "0", XTtl := "60", Body := some parisBody })
      = some ({ minInterval := 1500000000, blockedUntil := 60000002000, lastRequest := 1000 },
          Except.ok
            { Datacenter := "ACME", City := "Paris", Region := "IDF", Country := "France",
              Latitude := ⟨0x40486E147AE147AE⟩, Longitude := ⟨0x4002CCCCCCCCCCCD⟩ }) ∧
    ∃ c1, NewAPIClient.ResolveDatacenter
        (exchangeWith { StatusCode := 200, XRl := "0", XTtl := "60", Body := some parisBody })
      = some (c1, Except.ok
          { Datacenter := firstNonEmpty
              [parisBody.Org, parisBody.ISP, parisBody.City ++ "-" ++ parisBody.RegionName,
                parisBody.City, "unknown"]
            City := parisBody.City
            Region := parisBody.RegionName
            Country := parisBody.Country
            Latitude := parisBody.Latitude
            Longitude := parisBody.Longitude }) ∧
      c1.blockedUntil = max NewAPIClient.blockedUntil (2000 + 60 * Second) := by
  refine ⟨by decide, ?_⟩
  obtain ⟨c1, h1, h2, _⟩ := success_with_zero_remaining NewAPIClient
    { NewAPIClient with lastRequest := 1000 }
    (exchangeWith { StatusCode := 200, XRl := "0", XTtl := "60", Body := some parisBody })
    { StatusCode := 200, XRl := "0", XTtl := "60", Body := some parisBody } parisBody
    (by decide) (by decide) (by decide) (by decide) (by decide) (by decide)
  exact ⟨c1, h1, (h2 60 (by decide) (by decide) (by decide)).2 (by decide)⟩

/-! ## More lemmas on the strings -/

theorem containsRunes_elim (sub : List Char) :
    ∀ cs : List Char, containsRunes cs sub = true → ∃ pre post, cs = pre ++ sub ++ post := by
  intro cs
  induction cs with
  | nil =>
    intro h
    have : sub = [] := by simpa [containsRunes] using h
    exact ⟨[], [], by simp [this]⟩
  | cons c cs ih =>
    intro h
    unfold containsRunes at h
    rcases Bool.or_eq_true _ _ ▸ h with h1 | h2
    · obtain ⟨t, ht⟩ := List.isPrefixOf_iff_prefix.mp h1
      exact ⟨[], t, by simp [ht]⟩
    · obtain ⟨pre, post, hp⟩ := ih h2
      exact ⟨c :: pre, post, by simp [hp]⟩

theorem trimRunes_infix (cs : List Char) : ∃ a b, cs = a ++ trimRunes cs ++ b := by
  have h1 := List.takeWhile_append_dropWhile isSpace cs
  have h2 := List.takeWhile_append_dropWhile isSpace (cs.dropWhile isSpace).reverse
  refine ⟨cs.takeWhile isSpace, ((cs.dropWhile isSpace).reverse.takeWhile isSpace).reverse, ?_⟩
  unfold trimRunes
  have h3 := congrArg List.reverse h2
  rw [List.reverse_append, List.reverse_reverse] at h3
  rw [List.append_assoc, h3, h1]

/-- Where the test of `ResolveDatacenter` on the message finds the rate-limit
text, the message contains it in some letter case. -/
theorem mentions_of_contains (message : String)
    (h : Contains (ToLower (TrimSpace message)) "too many requests" = true) :
    MentionsRateLimit message := by
  unfold Contains ToLower TrimSpace at h
  simp only at h
  obtain ⟨pre, post, hp⟩ := containsRunes_elim _ _ h
  obtain ⟨l1, l2, h12, hl1, _⟩ := List.map_eq_append_iff.mp hp
  obtain ⟨l11, l12, h112, _, hmid⟩ := List.map_eq_append_iff.mp hl1
  obtain ⟨a, b, hab⟩ := trimRunes_infix message.data
  refine ⟨a ++ l11, l12, l2 ++ b, ?_, hmid⟩
  rw [hab, h12, h112]
  simp

theorem trimSpace_ne_empty_of_dash (city region : String) :
    TrimSpace (city ++ "-" ++ region) ≠ "" := by
  intro h
  have hd : (TrimSpace (city ++ "-" ++ region)).data = [] := by rw [h]
  unfold TrimSpace at hd
  simp only [String.data_append] at hd
  obtain ⟨pre', post', ht⟩ :=
    trimRunes_keeps_block city.data region.data [] [] '-' '-' (by decide) (by decide) rfl
  rw [ht] at hd
  simp at hd

theorem firstNonEmpty_label (org isp city region y z : String) :
    firstNonEmpty [org, isp, city ++ "-" ++ region, y, z] =
      if TrimSpace org ≠ "" then org
      else if TrimSpace isp ≠ "" then isp
      else city ++ "-" ++ region := by
  simp only [firstNonEmpty, trimSpace_ne_empty_of_dash city region, ne_eq, not_false_eq_true,
    if_true]

theorem resolve_with_response (c c0 : APIClient) (x : Exchange) (resp : Response)
    (hwait : c.waitForAllowance x.waits = (c0, WaitOutcome.granted))
    (hreq : x.requestOK = true) (hresp : x.response = some resp) :
    c.ResolveDatacenter x = some (c0.handleResponse x resp) := by
  unfold APIClient.ResolveDatacenter
  rw [hwait]
  simp [hreq, hresp]

/-! ## More claims on the resolver and the gate -/

/-- C11 fails as stated: a response with status 200, `X-Rl` "0" and `X-Ttl`
"30" whose body has the status "fail" and a message that is not about
throttling gets the provider error, and `blockedUntil` has moved from zero to
thirty seconds after the clock reading. -/
theorem provider_error_moves_blockedUntil :
    NewAPIClient.ResolveDatacenter
        (exchangeWith { StatusCode := 200, XRl := "0", XTtl := "30",
                        Body := some { Status := "fail", Message := "invalid query" } })
      = some ({ minInterval := 1500000000, blockedUntil := 30000002000, lastRequest := 1000 },
          Except.error (ResolveError.api "invalid query")) ∧
    NewAPIClient.blockedUntil = 0 := by
  decide

/-- C11, amended: in a call that fails with a provider error, `blockedUntil`
after the call is what it was before the call when the status is neither 200
nor 429, and, for a status 200 with a body whose status is not "success" and
whose message does not contain the rate-limit text, when `X-Rl` is not "0"
after trimming or `X-Ttl` does not parse as a positive integer; in such a
response with `X-Rl` "0" and `X-Ttl` a positive integer `t`, `blockedUntil`
afterwards is the later of its old value and the clock reading plus the
duration of `t` seconds. -/
theorem provider_error_blockedUntil (c c0 : APIClient) (x : Exchange) (resp : Response)
    (hwait : c.waitForAllowance x.waits = (c0, WaitOutcome.granted))
    (hreq : x.requestOK = true) (hresp : x.response = some resp) :
    (resp.StatusCode ≠ 200 → resp.StatusCode ≠ 429 →
      ∃ c1, c.ResolveDatacenter x = some (c1, Except.error (ResolveError.status resp.StatusCode)) ∧
        c1.blockedUntil = c.blockedUntil) ∧
    (∀ parsed : ipAPIResponse, resp.StatusCode = 200 → resp.Body = some parsed →
      parsed.Status ≠ "success" → ¬ MentionsRateLimit parsed.Message →
      ∃ c1 reason, c.ResolveDatacenter x = some (c1, Except.error (ResolveError.api reason)) ∧
        (TrimSpace resp.XRl ≠ "0" → c1.blockedUntil = c.blockedUntil) ∧
        ((Atoi (TrimSpace resp.XTtl) = none ∨ ∃ t, Atoi (TrimSpace resp.XTtl) = some t ∧ t ≤ 0) →
          c1.blockedUntil = c.blockedUntil) ∧
        (∀ t : Int, TrimSpace resp.XRl = "0" → Atoi (TrimSpace resp.XTtl) = some t → 0 < t →
          c1.blockedUntil = max c.blockedUntil (x.nowRemaining + wrapInt64 (t * Second)))) := by
  have hrun := resolve_with_response c c0 x resp hwait hreq hresp
  have hbu : c0.blockedUntil = c.blockedUntil := by
    have := waitForAllowance_blockedUntil x.waits c
    rw [hwait] at this
    exact this
  constructor
  · intro h1 h2
    refine ⟨c0, ?_, hbu⟩
    rw [hrun]
    unfold APIClient.handleResponse
    simp [h1, h2, StatusOK, StatusTooManyRequests]
  · intro parsed hs hbody hstatus hmsg
    have htest : ∀ reason : String,
        reason = (if TrimSpace parsed.Message = "" then "unknown" else TrimSpace parsed.Message) →
        Contains (ToLower reason) "too many requests" = false := by
      intro reason hr
      by_cases he : TrimSpace parsed.Message = ""
      · rw [hr, if_pos he]
        decide
      · rw [hr, if_neg he]
        by_contra hc
        exact hmsg (mentions_of_contains parsed.Message (by simpa using hc))
    refine ⟨c0.applyRemainingWindow x.nowRemaining resp.XRl resp.XTtl,
      if TrimSpace parsed.Message = "" then "unknown" else TrimSpace parsed.Message, ?_, ?_, ?_, ?_⟩
    · rw [hrun]
      unfold APIClient.handleResponse
      simp only [hs, StatusOK, hbody, ne_eq, not_true_eq_false, if_false, hstatus,
        not_false_eq_true, if_true, htest _ rfl, Bool.false_eq_true]
    · intro hrl
      unfold APIClient.applyRemainingWindow
      rw [if_pos hrl, hbu]
    · intro hbad
      unfold APIClient.applyRemainingWindow APIClient.applyRateLimitWindow
      split_ifs
      · exact hbu
      · rcases hbad with h | ⟨t, h, ht⟩
        · rw [h]; exact hbu
        · rw [h]
          dsimp only
          rw [if_pos ht]
          exact hbu
    · intro t hrl hparse hpos
      unfold APIClient.applyRemainingWindow
      rw [if_neg (not_not.mpr hrl),
        applyRateLimitWindow_parsed c0 x.nowRemaining resp.XTtl t hparse hpos, hbu]

/-- C11, amended, at an instance: a failing body on a response whose `X-Rl` is "12". -/
theorem provider_error_blockedUntil_witness :
    ∃ c1 reason, NewAPIClient.ResolveDatacenter
        (exchangeWith { StatusCode := 200, XRl := "12", XTtl := "30",
                        Body := some { Status := "fail", Message := "invalid query" } })
      = some (c1, Except.error (ResolveError.api reason)) ∧
      c1.blockedUntil = NewAPIClient.blockedUntil := by
  obtain ⟨c1, reason, h1, h2, _⟩ := (provider_error_blockedUntil NewAPIClient
    { NewAPIClient with lastRequest := 1000 }
    (exchangeWith { StatusCode := 200, XRl := "12", XTtl := "30",
                    Body := some { Status := "fail", Message := "invalid query" } })
    { StatusCode := 200, XRl := "12", XTtl := "30",
      Body := some { Status := "fail", Message := "invalid query" } }
    (by decide) (by decide) (by decide)).2
    { Status := "fail", Message := "invalid query" } (by decide) (by decide) (by decide)
    (fun h => by
      have := (contains_of_mentions _ h).2
      revert this
      decide)
  exact ⟨c1, reason, h1, h2 (by decide)⟩

/-- C12, the code at the failing input: for a successful body in which `org`,
`isp`, `city` and `regionName` are all empty the label is "-", the third
candidate, and not "unknown"; the two other examples of the claim come out as
the claim says. -/
theorem label_of_empty_fields_is_dash :
    NewAPIClient.ResolveDatacenter
        (exchangeWith { StatusCode := 200, XRl := "", XTtl := "",
                        Body := some { Status := "success" } })
      = some ({ NewAPIClient with lastRequest := 1000 },
          Except.ok { Datacenter := "-", City := "", Region := "", Country := "",
                      Latitude := ⟨0⟩, Longitude := ⟨0⟩ }) ∧
    firstNonEmpty ["", "", "" ++ "-" ++ "", "", "unknown"] = "-" ∧
    firstNonEmpty ["", "ACME", "Paris" ++ "-" ++ "IDF", "Paris", "unknown"] = "ACME" ∧
    firstNonEmpty ["", "", "Paris" ++ "-" ++ "IDF", "Paris", "unknown"] = "Paris-IDF" := by
  decide

theorem wait_cases (c : APIClient) (now : Int) :
    (c.nextWaitDuration now).2 =
      if now < c.blockedUntil then Time.Sub c.blockedUntil now
      else if c.lastRequest = 0 then 0
      else if now < c.lastRequest + c.minInterval then
        Time.Sub (c.lastRequest + c.minInterval) now
      else 0 := by
  unfold APIClient.nextWaitDuration
  simp only [Time.After, Time.IsZero, Time.Add, decide_eq_true_eq]
  split_ifs <;> rfl

/-- C19: the grants of the code are those of the specified wait.  For every
state and clock reading, `nextWaitDuration` returns 0 exactly when the wait
of the specification, `max(blockedUntil - now, (lastRequest + minInterval) -
now, 0)` with no term for an unset `lastRequest`, is 0, and it then stamps
`lastRequest` with `now` and leaves the other fields; a positive wait that it
returns is at most the wait of the specification, and leaves the state. -/
theorem grant_iff_specWait_zero (c : APIClient) (now : Int) :
    ((c.nextWaitDuration now).2 = 0 ↔ specWait c now = 0) ∧
    ((c.nextWaitDuration now).2 = 0 →
      (c.nextWaitDuration now).1 = { c with lastRequest := now }) ∧
    (0 < (c.nextWaitDuration now).2 →
      (c.nextWaitDuration now).2 ≤ specWait c now ∧ (c.nextWaitDuration now).1 = c) := by
  refine ⟨?_, ?_, fun h => ⟨?_, nextWaitDuration_pos_unchanged c now h⟩⟩
  · rw [wait_cases]
    unfold specWait
    simp only [Time.IsZero, Time.Add, Time.Sub, minDuration, maxDuration, decide_eq_true_eq]
    split_ifs <;> simp only [max_def] <;> split_ifs <;> first | omega | simp
  · intro h
    have hb : ¬ now < c.blockedUntil := fun hb => by
      have := nextWaitDuration_blocked c now hb
      omega
    unfold APIClient.nextWaitDuration at h ⊢
    simp only [Time.After, Time.IsZero, Time.Add, Time.Sub, minDuration, maxDuration,
      decide_eq_true_eq, hb, if_false] at h ⊢
    split_ifs at h ⊢ <;> first | rfl | (simp only at h; omega)
  · rw [wait_cases] at h ⊢
    revert h
    unfold specWait
    simp only [Time.IsZero, Time.Add, Time.Sub, minDuration, maxDuration, decide_eq_true_eq]
    split_ifs <;> simp only [max_def] <;> split_ifs <;> omega

/-- C19, at an instance: the state of the counterexample of the wait formula,
where the code waits a millisecond and the specification half a second, and
the call that grants once both have passed. -/
theorem grant_iff_specWait_zero_witness :
    (((NewAPIClient.nextWaitDuration 1000000000).1.applyRateLimitWindow 1001000000
        "1").nextWaitDuration 2000000000).2 ≤
      specWait ((NewAPIClient.nextWaitDuration 1000000000).1.applyRateLimitWindow 1001000000 "1")
        2000000000 ∧
    (((NewAPIClient.nextWaitDuration 1000000000).1.applyRateLimitWindow 1001000000
        "1").nextWaitDuration 2500000000).1 =
      { minInterval := 1500000000, blockedUntil := 2001000000, lastRequest := 2500000000 } :=
  ⟨((grant_iff_specWait_zero _ 2000000000).2.2 (by decide)).1,
    ((grant_iff_specWait_zero
      ((NewAPIClient.nextWaitDuration 1000000000).1.applyRateLimitWindow 1001000000 "1")
      2500000000).2.1 (by decide)).trans (by decide)⟩

/-- C20: the label of a successful response is `org` as received when `org`
is not made of white space only, else `isp` as received when `isp` is not
made of white space only, else `city`, a dash and `regionName`; so the label
is never empty nor made of white space only, and what stands in the places of
the last two candidates of `firstNonEmpty` has no part in it. -/
theorem datacenter_label (c c0 : APIClient) (x : Exchange) (resp : Response)
    (parsed : ipAPIResponse)
    (hwait : c.waitForAllowance x.waits = (c0, WaitOutcome.granted))
    (hreq : x.requestOK = true) (hresp : x.response = some resp)
    (hstatus : resp.StatusCode = 200) (hbody : resp.Body = some parsed)
    (hok : parsed.Status = "success") :
    ∃ c1 info, c.ResolveDatacenter x = some (c1, Except.ok info) ∧
      info.Datacenter =
        (if TrimSpace parsed.Org ≠ "" then parsed.Org
         else if TrimSpace parsed.ISP ≠ "" then parsed.ISP
         else parsed.City ++ "-" ++ parsed.RegionName) ∧
      TrimSpace info.Datacenter ≠ "" ∧ info.Datacenter ≠ "" ∧
      ∀ y z : String,
        firstNonEmpty [parsed.Org, parsed.ISP, parsed.City ++ "-" ++ parsed.RegionName, y, z] =
          info.Datacenter := by
  have hrun := resolve_with_response c c0 x resp hwait hreq hresp
  have hlabel := firstNonEmpty_label parsed.Org parsed.ISP parsed.City parsed.RegionName
  have hblank : TrimSpace (firstNonEmpty [parsed.Org, parsed.ISP,
      parsed.City ++ "-" ++ parsed.RegionName, parsed.City, "unknown"]) ≠ "" := by
    rw [hlabel]
    split_ifs with h1 h2
    · exact h1
    · exact h2
    · exact trimSpace_ne_empty_of_dash _ _
  refine ⟨c0.applyRemainingWindow x.nowRemaining resp.XRl resp.XTtl,
    { Datacenter := firstNonEmpty
        [parsed.Org, parsed.ISP, parsed.City ++ "-" ++ parsed.RegionName, parsed.City, "unknown"]
      City := parsed.City
      Region := parsed.RegionName
      Country := parsed.Country
      Latitude := parsed.Latitude
      Longitude := parsed.Longitude }, ?_, hlabel _ _, hblank, ?_, ?_⟩
  · rw [hrun]
    unfold APIClient.handleResponse
    simp only [hstatus, StatusOK, hbody, hok, ne_eq, not_true_eq_false, if_false]
  · intro hempty
    apply hblank
    simp only at hempty
    rw [hempty]
    decide
  · intro y z
    simp only
    rw [hlabel, hlabel]

/-- C20, at an instance: a body with a blank `org`, no `isp` and no `regionName`. -/
theorem datacenter_label_witness :
    ∃ c1 info, NewAPIClient.ResolveDatacenter
        (exchangeWith { StatusCode := 200, XRl := "", XTtl := "",
                        Body := some { Status := "success", Org := "  ", City := "Paris" } })
      = some (c1, Except.ok info) ∧ info.Datacenter = "Paris-" := by
  obtain ⟨c1, info, h1, h2, _⟩ := datacenter_label NewAPIClient
    { NewAPIClient with lastRequest := 1000 }
    (exchangeWith { StatusCode := 200, XRl := "", XTtl := "",
                    Body := some { Status := "success", Org := "  ", City := "Paris" } })
    { StatusCode := 200, XRl := "", XTtl := "",
      Body := some { Status := "success", Org := "  ", City := "Paris" } }
    { Status := "success", Org := "  ", City := "Paris" }
    (by decide) (by decide) (by decide) (by decide) (by decide) (by decide)
  exact ⟨c1, info, h1, h2.trans (by decide)⟩

/-! ## Lemmas on the exporter -/

theorem resolutions_length {σ ε : Type} (resolve : σ → String → σ × Resolved ε)
    (nodes : List NodeConfig) :
    ∀ s : σ, (resolutions resolve s nodes).length = nodes.length := by
  induction nodes with
  | nil => intro s; rfl
  | cons node rest ih => intro s; simp [resolutions, ih]

theorem refreshLoop_resolverCalls {σ ε : Type} (resolve : σ → String → σ × Resolved ε)
    (nodes : List NodeConfig) :
    ∀ (s : σ) (e : Exporter),
      resolverCalls (Exporter.refreshLoop resolve s e nodes).trace =
        nodes.map fun node => node.Endpoint := by
  induction nodes with
  | nil => intro s e; rfl
  | cons node rest ih =>
    intro s e
    unfold Exporter.refreshLoop
    dsimp only
    split <;> simp [resolverCalls, ih]

theorem refreshLoop_errorFlagWrites {σ ε : Type} (resolve : σ → String → σ × Resolved ε)
    (nodes : List NodeConfig) :
    ∀ (s : σ) (e : Exporter),
      errorFlagWrites (Exporter.refreshLoop resolve s e nodes).trace =
        List.zipWith (fun node r => ([node.Name, node.Endpoint], writtenFlag r)) nodes
          (resolutions resolve s nodes) := by
  induction nodes with
  | nil => intro s e; rfl
  | cons node rest ih =>
    intro s e
    unfold Exporter.refreshLoop
    dsimp only
    split <;> rename_i h <;> simp [errorFlagWrites, resolutions, writtenFlag, ih, h]

theorem refreshLoop_infoWrites {σ ε : Type} (resolve : σ → String → σ × Resolved ε)
    (nodes : List NodeConfig) :
    ∀ (s : σ) (e : Exporter),
      infoWrites (Exporter.refreshLoop resolve s e nodes).trace =
        List.zipWith (fun node r => (infoLabels node (writtenInfo r), 1)) nodes
          (resolutions resolve s nodes) := by
  induction nodes with
  | nil => intro s e; rfl
  | cons node rest ih =>
    intro s e
    unfold Exporter.refreshLoop
    dsimp only
    split <;> rename_i h <;> simp [infoWrites, resolutions, writtenInfo, ih, h]

theorem refreshLoop_errs {σ ε : Type} (resolve : σ → String → σ × Resolved ε)
    (nodes : List NodeConfig) :
    ∀ (s : σ) (e : Exporter),
      (Exporter.refreshLoop resolve s e nodes).errs =
        (List.zip nodes (resolutions resolve s nodes)).filterMap fun p =>
          p.2.err.map fun err => { Name := p.1.Name, Endpoint := p.1.Endpoint, err := err } := by
  induction nodes with
  | nil => intro s e; rfl
  | cons node rest ih =>
    intro s e
    unfold Exporter.refreshLoop
    dsimp only
    split <;> rename_i h <;> simp [resolutions, ih, h]

theorem unknown_labels (node : NodeConfig) :
    infoLabels node unknownInfo =
      [node.Name, node.Endpoint, "unknown", "unknown", "unknown", "unknown", "0.000000",
        "0.000000"] := by
  have h1 : valueOrUnknown "unknown" = "unknown" := by decide
  have h2 : formatCoordinate ⟨0⟩ = "0.000000" := by decide
  simp [infoLabels, unknownInfo, h1, h2]

/-! ## The claims on the exporter -/

/-- C13: for every list of nodes and every resolver, `Refresh` calls the
resolver once for each node, in the order of the list and with the endpoint
of the node; it writes the identity gauge once for each node, with the value
1 and labels that begin with the name and the endpoint of the node, and the
error flag once for each node under the name and the endpoint, with 1 where
the resolution failed and 0 where it did not; so the writes of 1 to the error
flag are as many as the failures, and no failure ends the loop. -/
theorem refresh_writes_each_node {σ ε : Type} (resolve : σ → String → σ × Resolved ε)
    (s : σ) (e : Exporter) (nodes : List NodeConfig) :
    (resolutions resolve s nodes).length = nodes.length ∧
    resolverCalls (Exporter.Refresh resolve s e nodes).trace =
      (nodes.map fun node => node.Endpoint) ∧
    infoWrites (Exporter.Refresh resolve s e nodes).trace =
      List.zipWith (fun node r => (infoLabels node (writtenInfo r), 1)) nodes
        (resolutions resolve s nodes) ∧
    (infoWrites (Exporter.Refresh resolve s e nodes).trace).length = nodes.length ∧
    ((infoWrites (Exporter.Refresh resolve s e nodes).trace).map fun w => (w.1.take 2, w.2)) =
      (nodes.map fun node => ([node.Name, node.Endpoint], 1)) ∧
    errorFlagWrites (Exporter.Refresh resolve s e nodes).trace =
      List.zipWith (fun node r => ([node.Name, node.Endpoint], if r.err.isSome then 1 else 0))
        nodes (resolutions resolve s nodes) ∧
    (errorFlagWrites (Exporter.Refresh resolve s e nodes).trace).length = nodes.length ∧
    ((errorFlagWrites (Exporter.Refresh resolve s e nodes).trace).map fun w => w.1) =
      (nodes.map fun node => [node.Name, node.Endpoint]) ∧
    ((errorFlagWrites (Exporter.Refresh resolve s e nodes).trace).filter fun w => w.2 == 1).length =
      ((resolutions resolve s nodes).filter fun r => r.err.isSome).length ∧
    ((errorFlagWrites (Exporter.Refresh resolve s e nodes).trace).filter fun w => w.2 == 0).length =
      ((resolutions resolve s nodes).filter fun r => !r.err.isSome).length := by
  have hlen := resolutions_length resolve nodes s
  have hflag : ∀ r : Resolved ε, writtenFlag r = if r.err.isSome then 1 else 0 := by
    intro r
    unfold writtenFlag
    split <;> rename_i h <;> simp [h]
  have hinfo := refreshLoop_infoWrites resolve nodes s e
  have herr := refreshLoop_errorFlagWrites resolve nodes s e
  simp only [hflag] at herr
  -- the facts on lists zipped with the resolutions, by induction on the two lists
  have hzip : ∀ (ns : List NodeConfig) (rs : List (Resolved ε)), rs.length = ns.length →
      ((List.zipWith (fun node r => (infoLabels node (writtenInfo r), 1)) ns rs).map
          fun w => (w.1.take 2, w.2)) = (ns.map fun node => ([node.Name, node.Endpoint], 1)) ∧
      ((List.zipWith (fun (node : NodeConfig) (r : Resolved ε) =>
          ([node.Name, node.Endpoint], if r.err.isSome then 1 else 0)) ns rs).map fun w => w.1) =
        (ns.map fun node => [node.Name, node.Endpoint]) ∧
      ((List.zipWith (fun (node : NodeConfig) (r : Resolved ε) =>
          ([node.Name, node.Endpoint], if r.err.isSome then 1 else 0)) ns rs).filter
            fun w => w.2 == 1).length = (rs.filter fun r => r.err.isSome).length ∧
      ((List.zipWith (fun (node : NodeConfig) (r : Resolved ε) =>
          ([node.Name, node.Endpoint], if r.err.isSome then 1 else 0)) ns rs).filter
            fun w => w.2 == 0).length = (rs.filter fun r => !r.err.isSome).length := by
    intro ns
    induction ns with
    | nil =>
      intro rs h
      have : rs = [] := List.length_eq_zero.mp h
      subst this
      simp
    | cons n ns ih =>
      intro rs h
      cases rs with
      | nil => simp at h
      | cons r rs =>
        obtain ⟨h1, h2, h3, h4⟩ := ih rs (by simpa using h)
        refine ⟨?_, ?_, ?_, ?_⟩
        · simp only [List.zipWith_cons_cons, List.map_cons, h1]
          simp [infoLabels]
        · simp only [List.zipWith_cons_cons, List.map_cons, h2]
        · simp only [List.zipWith_cons_cons, List.filter_cons]
          cases hr : r.err.isSome <;> simp [h3]
        · simp only [List.zipWith_cons_cons, List.filter_cons]
          cases hr : r.err.isSome <;> simp [h4]
  obtain ⟨hz1, hz2, hz3, hz4⟩ := hzip nodes (resolutions resolve s nodes) hlen
  unfold Exporter.Refresh
  dsimp only
  refine ⟨hlen, refreshLoop_resolverCalls resolve nodes s e, hinfo, ?_, ?_, herr, ?_, ?_, ?_, ?_⟩
  · rw [hinfo, List.length_zipWith, hlen, Nat.min_self]
  · rw [hinfo, hz1]
  · rw [herr, List.length_zipWith, hlen, Nat.min_self]
  · rw [herr, hz2]
  · rw [herr, hz3]
  · rw [herr, hz4]

/-- C15: for the node of every place `i` in the list whose resolution fails,
whatever info the resolver returns with the error, `Refresh` writes the
identity gauge of place `i` with the name and the endpoint of the node, the
label "unknown" for the datacenter, the city, the region and the country, and
"0.000000", the text of the coordinate 0, for the latitude and the longitude;
and it writes 1 to the error flag of the node. -/
theorem failed_node_gets_unknown {σ ε : Type} (resolve : σ → String → σ × Resolved ε)
    (s : σ) (e : Exporter) (nodes : List NodeConfig) (i : Nat) (node : NodeConfig)
    (r : Resolved ε) (err : ε)
    (hnode : nodes[i]? = some node) (hres : (resolutions resolve s nodes)[i]? = some r)
    (hfail : r.err = some err) :
    (infoWrites (Exporter.Refresh resolve s e nodes).trace)[i]? =
      some ([node.Name, node.Endpoint, "unknown", "unknown", "unknown", "unknown",
        formatCoordinate ⟨0⟩, formatCoordinate ⟨0⟩], 1) ∧
    formatCoordinate ⟨0⟩ = "0.000000" ∧
    (errorFlagWrites (Exporter.Refresh resolve s e nodes).trace)[i]? =
      some ([node.Name, node.Endpoint], 1) := by
  have h0 : formatCoordinate ⟨0⟩ = "0.000000" := by decide
  have hinfo := refreshLoop_infoWrites resolve nodes s e
  have herr := refreshLoop_errorFlagWrites resolve nodes s e
  unfold Exporter.Refresh
  dsimp only
  refine ⟨?_, h0, ?_⟩
  · rw [hinfo, List.getElem?_zipWith, hnode, hres]
    have : writtenInfo r = unknownInfo := by simp [writtenInfo, hfail]
    simp only [this, unknown_labels, h0]
  · rw [herr, List.getElem?_zipWith, hnode, hres]
    simp [writtenFlag, hfail]

/-- C15, at an instance: two nodes, the resolution of the second of which fails. -/
theorem failed_node_gets_unknown_witness :
    (infoWrites (Exporter.Refresh (fakeResolver fun k => k == 1) 0 NewExporter
        sampleNodes).trace)[1]? =
      some (["edge-2", "198.51.100.9", "unknown", "unknown", "unknown", "unknown",
        formatCoordinate ⟨0⟩, formatCoordinate ⟨0⟩], 1) ∧
    formatCoordinate ⟨0⟩ = "0.000000" ∧
    (errorFlagWrites (Exporter.Refresh (fakeResolver fun k => k == 1) 0 NewExporter
        sampleNodes).trace)[1]? = some (["edge-2", "198.51.100.9"], 1) :=
  failed_node_gets_unknown (fakeResolver fun k => k == 1) 0 NewExporter sampleNodes 1
    { Name := "edge-2", Endpoint := "198.51.100.9" }
    { info := unknownInfo, err := some "timeout" } "timeout" (by decide) (by decide) rfl

theorem valueOrUnknown_label (value : String) :
    (value = "" → valueOrUnknown value = "unknown") ∧
    (TrimSpace value ≠ "" → valueOrUnknown value = value) ∧
    valueOrUnknown value ≠ "" := by
  have hempty : TrimSpace "" = "" := by decide
  unfold valueOrUnknown
  refine ⟨fun h => by rw [h, if_pos hempty], fun h => by rw [if_neg h], ?_⟩
  by_cases h : TrimSpace value = ""
  · rw [if_pos h]
    decide
  · rw [if_neg h]
    intro hv
    exact h (by rw [hv]; exact hempty)

theorem handleResponse_ok_label (c c1 : APIClient) (x : Exchange) (resp : Response)
    (info : DatacenterInfo) (h : c.handleResponse x resp = (c1, Except.ok info)) :
    TrimSpace info.Datacenter ≠ "" := by
  unfold APIClient.handleResponse at h
  dsimp only at h
  split_ifs at h
  · cases h
  · cases h
  · split at h
    · cases h
    · split_ifs at h <;> cases h
      simp only
      rw [firstNonEmpty_label]
      split_ifs with h5 h6
      · exact h5
      · exact h6
      · exact trimSpace_ne_empty_of_dash _ _

/-- The label of every info that `ResolveDatacenter` returns with no error is
not blank. -/
theorem resolveDatacenter_ok_label (c c1 : APIClient) (x : Exchange) (info : DatacenterInfo)
    (h : c.ResolveDatacenter x = some (c1, Except.ok info)) :
    TrimSpace info.Datacenter ≠ "" := by
  unfold APIClient.ResolveDatacenter at h
  split at h
  · cases h
  · cases h
  · split_ifs at h
    · split at h
      · cases h
      · exact handleResponse_ok_label _ c1 x _ info (Option.some.inj h)
    · cases h

/-- The exporter on a resolver other than the client: when a resolver returns,
with no error, an info whose `Datacenter` is empty, `Refresh` writes the
label of the datacenter as it is, the empty string; the labels of the city
and the region, which it passes through `valueOrUnknown`, are "unknown". -/
theorem empty_datacenter_label_is_written :
    (Exporter.Refresh blankResolver () NewExporter
        [{ Name := "edge-1", Endpoint := "203.0.113.7" }]).exporter.datacenterInfo =
      [(["edge-1", "203.0.113.7", "", "unknown", "unknown", "France", "48.860000", "2.350000"],
        1)] ∧
    (Exporter.Refresh blankResolver () NewExporter
        [{ Name := "edge-1", Endpoint := "203.0.113.7" }]).err = none := by
  decide

/-- C16: for the node of every place `i` in the list whose resolution
succeeds with the info `r.info`, `Refresh` writes the identity gauge of place
`i` with the value 1 and, after the name and the endpoint, the labels of the
datacenter, the city, the region and the country.  The labels of the city,
the region and the country are "unknown" when the field is empty, the field
when it is not blank, and never empty.  The label of the datacenter is the
field `Datacenter` as the resolver returned it; whenever the info is one that
`ResolveDatacenter` returns with no error, that field is not blank, so the
label of the datacenter too is "unknown" when the field is empty, the field
when it is not blank, and never empty. -/
theorem text_labels_of_success {σ ε : Type} (resolve : σ → String → σ × Resolved ε)
    (s : σ) (e : Exporter) (nodes : List NodeConfig) (i : Nat) (node : NodeConfig)
    (r : Resolved ε)
    (hnode : nodes[i]? = some node) (hres : (resolutions resolve s nodes)[i]? = some r)
    (hok : r.err = none) :
    ∃ datacenter city region country latitude longitude : String,
      (infoWrites (Exporter.Refresh resolve s e nodes).trace)[i]? =
        some ([node.Name, node.Endpoint, datacenter, city, region, country, latitude,
          longitude], 1) ∧
      datacenter = r.info.Datacenter ∧
      ((r.info.City = "" → city = "unknown") ∧
        (TrimSpace r.info.City ≠ "" → city = r.info.City) ∧ city ≠ "") ∧
      ((r.info.Region = "" → region = "unknown") ∧
        (TrimSpace r.info.Region ≠ "" → region = r.info.Region) ∧ region ≠ "") ∧
      ((r.info.Country = "" → country = "unknown") ∧
        (TrimSpace r.info.Country ≠ "" → country = r.info.Country) ∧ country ≠ "") ∧
      ∀ (c c1 : APIClient) (x : Exchange),
        c.ResolveDatacenter x = some (c1, Except.ok r.info) →
        (r.info.Datacenter = "" → datacenter = "unknown") ∧
        (TrimSpace r.info.Datacenter ≠ "" → datacenter = r.info.Datacenter) ∧
        datacenter ≠ "" := by
  have hinfo := refreshLoop_infoWrites resolve nodes s e
  have hwritten : writtenInfo r = r.info := by simp [writtenInfo, hok]
  have hempty : TrimSpace "" = "" := by decide
  refine ⟨r.info.Datacenter, valueOrUnknown r.info.City, valueOrUnknown r.info.Region,
    valueOrUnknown r.info.Country, formatCoordinate r.info.Latitude,
    formatCoordinate r.info.Longitude, ?_, rfl, valueOrUnknown_label _, valueOrUnknown_label _,
    valueOrUnknown_label _, ?_⟩
  · unfold Exporter.Refresh
    dsimp only
    rw [hinfo, List.getElem?_zipWith, hnode, hres]
    simp only [hwritten, infoLabels]
  · intro c c1 x hclient
    have hlabel := resolveDatacenter_ok_label c c1 x r.info hclient
    have hne : r.info.Datacenter ≠ "" := fun h => hlabel (by rw [h]; exact hempty)
    exact ⟨fun h => absurd h hne, fun _ => rfl, hne⟩

/-- C16, at an instance: one node, and a resolver that returns what the client
returns for a successful body with the `org` "ACME", the country "France" and
no city nor region. -/
theorem text_labels_of_success_witness :
    NewAPIClient.ResolveDatacenter
        (exchangeWith { StatusCode := 200, XRl := "44", XTtl := "60",
                        Body := some { Status := "success", Org := "ACME", Country := "France" } })
      = some ({ NewAPIClient with lastRequest := 1000 },
          Except.ok { Datacenter := "ACME", City := "", Region := "", Country := "France",
                      Latitude := ⟨0⟩, Longitude := ⟨0⟩ }) ∧
    ∃ datacenter city region country latitude longitude : String,
      (infoWrites (Exporter.Refresh
          (fun (k : Nat) (_ : String) =>
            (k + 1,
              ({ info := { Datacenter := "ACME", City := "", Region := "", Country := "France",
                           Latitude := ⟨0⟩, Longitude := ⟨0⟩ },
                 err := none } : Resolved String)))
          0 NewExporter [{ Name := "edge-1", Endpoint := "203.0.113.7" }]).trace)[0]? =
        some (["edge-1", "203.0.113.7", datacenter, city, region, country, latitude,
          longitude], 1) ∧
      datacenter = "ACME" ∧ city = "unknown" ∧ region = "unknown" ∧ country = "France" ∧
      datacenter ≠ "" := by
  refine ⟨by decide, ?_⟩
  obtain ⟨datacenter, city, region, country, latitude, longitude, h1, h2, h3, h4, h5, h6⟩ :=
    text_labels_of_success
      (fun (k : Nat) (_ : String) =>
        (k + 1,
          ({ info := { Datacenter := "ACME", City := "", Region := "", Country := "France",
                       Latitude := ⟨0⟩, Longitude := ⟨0⟩ },
             err := none } : Resolved String)))
      0 NewExporter [{ Name := "edge-1", Endpoint := "203.0.113.7" }] 0
      { Name := "edge-1", Endpoint := "203.0.113.7" }
      { info := { Datacenter := "ACME", City := "", Region := "", Country := "France",
                  Latitude := ⟨0⟩, Longitude := ⟨0⟩ },
        err := none }
      (by decide) (by decide) rfl
  exact ⟨datacenter, city, region, country, latitude, longitude, h1, h2, h3.1 rfl, h4.1 rfl,
    h5.2.1 (by decide),
    (h6 NewAPIClient { NewAPIClient with lastRequest := 1000 }
      (exchangeWith { StatusCode := 200, XRl := "44", XTtl := "60",
                      Body := some { Status := "success", Org := "ACME", Country := "France" } })
      (by decide)).2.2⟩

/-- C17: for every list of nodes and every resolver, `Refresh` returns `nil`
exactly when the resolution of every node succeeded; what it returns is the
join of one error for each node whose resolution failed, in the order of the
nodes, with the name and the endpoint of the node and the error of the
resolver, so an error that it returns joins as many errors as there are
failures. -/
theorem refresh_error_joins_failures {σ ε : Type} (resolve : σ → String → σ × Resolved ε)
    (s : σ) (e : Exporter) (nodes : List NodeConfig) :
    ((Exporter.Refresh resolve s e nodes).err = none ↔
      ∀ r ∈ resolutions resolve s nodes, r.err = none) ∧
    (Exporter.Refresh resolve s e nodes).err =
      errorsJoin ((List.zip nodes (resolutions resolve s nodes)).filterMap fun p =>
        p.2.err.map fun err =>
          ({ Name := p.1.Name, Endpoint := p.1.Endpoint, err := err } : NodeError ε)) ∧
    ∀ errs, (Exporter.Refresh resolve s e nodes).err = some errs →
      errs = ((List.zip nodes (resolutions resolve s nodes)).filterMap fun p =>
        p.2.err.map fun err =>
          ({ Name := p.1.Name, Endpoint := p.1.Endpoint, err := err } : NodeError ε)) ∧
      errs.length = ((resolutions resolve s nodes).filter fun r => r.err.isSome).length := by
  have hlen := resolutions_length resolve nodes s
  have herrs := refreshLoop_errs resolve nodes s e
  have hjoin : ∀ l : List (NodeError ε), (errorsJoin l = none ↔ l = []) ∧
      ∀ errs, errorsJoin l = some errs → errs = l := by
    intro l
    cases l with
    | nil => simp [errorsJoin]
    | cons a l => simp [errorsJoin]
  have hzip : ∀ (ns : List NodeConfig) (rs : List (Resolved ε)), rs.length = ns.length →
      (((List.zip ns rs).filterMap fun p =>
        p.2.err.map fun err =>
          ({ Name := p.1.Name, Endpoint := p.1.Endpoint, err := err } : NodeError ε)) = [] ↔
        ∀ r ∈ rs, r.err = none) ∧
      ((List.zip ns rs).filterMap fun p =>
        p.2.err.map fun err =>
          ({ Name := p.1.Name, Endpoint := p.1.Endpoint, err := err } : NodeError ε)).length =
        (rs.filter fun r => r.err.isSome).length := by
    intro ns
    induction ns with
    | nil =>
      intro rs h
      have : rs = [] := List.length_eq_zero.mp h
      subst this
      simp
    | cons n ns ih =>
      intro rs h
      cases rs with
      | nil => simp at h
      | cons r rs =>
        obtain ⟨h1, h2⟩ := ih rs (by simpa using h)
        cases hr : r.err with
        | none =>
          simp only [List.zip_cons_cons, List.filterMap_cons, hr, Option.map_none',
            List.mem_cons, forall_eq_or_imp, true_and, List.filter_cons, Option.isSome_none]
          exact ⟨h1, by simpa using h2⟩
        | some err =>
          simp only [List.zip_cons_cons, List.filterMap_cons, hr, Option.map_some',
            List.mem_cons, forall_eq_or_imp, List.filter_cons, Option.isSome_some]
          simp [h2]
  obtain ⟨hz1, hz2⟩ := hzip nodes (resolutions resolve s nodes) hlen
  unfold Exporter.Refresh
  dsimp only
  rw [herrs]
  refine ⟨(hjoin _).1.trans hz1, rfl, fun errs h => ?_⟩
  have := (hjoin _).2 errs h
  exact ⟨this, by rw [this, hz2]⟩

/-- C17, at an instance: two nodes, the resolution of the second of which fails. -/
theorem refresh_error_joins_failures_witness :
    (Exporter.Refresh (fakeResolver fun k => k == 1) 0 NewExporter sampleNodes).err =
      some [{ Name := "edge-2", Endpoint := "198.51.100.9", err := "timeout" }] ∧
    [({ Name := "edge-2", Endpoint := "198.51.100.9", err := "timeout" } : NodeError String)].length
      = ((resolutions (fakeResolver fun k => k == 1) 0 sampleNodes).filter
          fun r => r.err.isSome).length :=
  ⟨by decide,
    ((refresh_error_joins_failures (fakeResolver fun k => k == 1) 0 NewExporter sampleNodes).2.2
      _ (by decide)).2⟩

/-! ## Lemmas on the families -/

theorem labels_Set (g : GaugeVec) (l : List String) (v : Nat) :
    GaugeVec.labels (GaugeVec.Set g l v) =
      if l ∈ GaugeVec.labels g then GaugeVec.labels g else GaugeVec.labels g ++ [l] := by
  induction g with
  | nil => simp [GaugeVec.Set, GaugeVec.labels]
  | cons p g ih =>
    obtain ⟨l', v'⟩ := p
    unfold GaugeVec.labels at ih ⊢
    unfold GaugeVec.Set
    by_cases h : l' = l
    · simp [h]
    · have h' : ¬ l = l' := fun e => h e.symm
      simp only [h, if_false, List.map_cons, ih, List.mem_cons, h', false_or]
      split_ifs <;> simp

theorem mem_addLabels (ws : List (List String)) :
    ∀ (acc : List (List String)) (x : List String),
      x ∈ addLabels acc ws ↔ x ∈ acc ∨ x ∈ ws := by
  induction ws with
  | nil => intro acc x; simp [addLabels]
  | cons w ws ih =>
    intro acc x
    have hstep : addLabels acc (w :: ws) = addLabels (if w ∈ acc then acc else acc ++ [w]) ws := rfl
    rw [hstep, ih]
    by_cases hw : w ∈ acc
    · simp only [hw, if_true, List.mem_cons]
      constructor
      · rintro (h | h)
        · exact Or.inl h
        · exact Or.inr (Or.inr h)
      · rintro (h | h | h)
        · exact Or.inl h
        · exact Or.inl (h ▸ hw)
        · exact Or.inr h
    · simp only [hw, if_false, List.mem_append, List.mem_singleton, List.mem_cons]
      tauto

theorem nodup_addLabels (ws : List (List String)) :
    ∀ acc : List (List String), acc.Nodup → (addLabels acc ws).Nodup := by
  induction ws with
  | nil => intro acc h; simpa [addLabels] using h
  | cons w ws ih =>
    intro acc h
    have hstep : addLabels acc (w :: ws) = addLabels (if w ∈ acc then acc else acc ++ [w]) ws := rfl
    rw [hstep]
    apply ih
    by_cases hw : w ∈ acc
    · simpa [hw] using h
    · simp only [hw, if_false]
      exact List.Nodup.append h (List.nodup_singleton w) (by simpa using hw)

theorem addLabels_fresh (ws : List (List String)) :
    ∀ acc : List (List String), ws.Nodup → (∀ w ∈ ws, w ∉ acc) → addLabels acc ws = acc ++ ws := by
  induction ws with
  | nil => intro acc _ _; simp [addLabels]
  | cons w ws ih =>
    intro acc hnd hfresh
    have hstep : addLabels acc (w :: ws) = addLabels (if w ∈ acc then acc else acc ++ [w]) ws := rfl
    have hw : w ∉ acc := hfresh w (List.mem_cons_self _ _)
    rw [hstep, if_neg hw, ih (acc ++ [w]) (List.nodup_cons.mp hnd).2]
    · simp
    · intro x hx hmem
      rcases List.mem_append.mp hmem with h | h
      · exact hfresh x (List.mem_cons_of_mem _ hx) h
      · have : x = w := by simpa using h
        exact (List.nodup_cons.mp hnd).1 (this ▸ hx)

theorem addLabels_present (ws : List (List String)) :
    ∀ acc : List (List String), (∀ w ∈ ws, w ∈ acc) → addLabels acc ws = acc := by
  induction ws with
  | nil => intro acc _; simp [addLabels]
  | cons w ws ih =>
    intro acc h
    have hstep : addLabels acc (w :: ws) = addLabels (if w ∈ acc then acc else acc ++ [w]) ws := rfl
    rw [hstep, if_pos (h w (List.mem_cons_self _ _))]
    exact ih acc fun x hx => h x (List.mem_cons_of_mem _ hx)

theorem refreshLoop_info_labels {σ ε : Type} (resolve : σ → String → σ × Resolved ε)
    (nodes : List NodeConfig) :
    ∀ (s : σ) (e : Exporter),
      GaugeVec.labels (Exporter.refreshLoop resolve s e nodes).exporter.datacenterInfo =
        addLabels (GaugeVec.labels e.datacenterInfo)
          ((infoWrites (Exporter.refreshLoop resolve s e nodes).trace).map fun w => w.1) := by
  induction nodes with
  | nil => intro s e; rfl
  | cons node rest ih =>
    intro s e
    unfold Exporter.refreshLoop
    dsimp only
    split <;> simp only [infoWrites, List.map_cons, ih, labels_Set] <;> rfl

theorem refreshLoop_flag_labels {σ ε : Type} (resolve : σ → String → σ × Resolved ε)
    (nodes : List NodeConfig) :
    ∀ (s : σ) (e : Exporter),
      GaugeVec.labels (Exporter.refreshLoop resolve s e nodes).exporter.resolveErrorFlag =
        addLabels (GaugeVec.labels e.resolveErrorFlag)
          (nodes.map fun node => [node.Name, node.Endpoint]) := by
  induction nodes with
  | nil => intro s e; rfl
  | cons node rest ih =>
    intro s e
    unfold Exporter.refreshLoop
    dsimp only
    split <;> simp only [List.map_cons, ih, labels_Set] <;> rfl

theorem refreshLoop_info_keys {σ ε : Type} (resolve : σ → String → σ × Resolved ε)
    (nodes : List NodeConfig) :
    ∀ (s : σ) (e : Exporter),
      ((infoWrites (Exporter.refreshLoop resolve s e nodes).trace).map fun w => w.1.take 2) =
        nodes.map fun node => [node.Name, node.Endpoint] := by
  induction nodes with
  | nil => intro s e; rfl
  | cons node rest ih =>
    intro s e
    unfold Exporter.refreshLoop
    dsimp only
    split <;> simp [infoWrites, infoLabels, ih]

theorem refresh_keeps_families {σ ε : Type} (resolve : σ → String → σ × Resolved ε)
    (nodes : List NodeConfig) (s : σ) (e : Exporter) (h : FamiliesOf nodes e) :
    FamiliesOf nodes (Exporter.Refresh resolve s e nodes).exporter := by
  obtain ⟨h1, h2, h3, h4⟩ := h
  unfold Exporter.Refresh
  dsimp only
  refine ⟨?_, ?_, ?_, ?_⟩
  · rw [refreshLoop_flag_labels]
    exact nodup_addLabels _ _ h1
  · rw [refreshLoop_info_labels]
    exact nodup_addLabels _ _ h2
  · intro x hx
    rw [refreshLoop_flag_labels, mem_addLabels] at hx
    rcases hx with hx | hx
    · exact h3 x hx
    · obtain ⟨n, hn, rfl⟩ := List.mem_map.mp hx
      exact ⟨n, hn, rfl⟩
  · intro x hx
    rw [refreshLoop_info_labels, mem_addLabels] at hx
    rcases hx with hx | hx
    · exact h4 x hx
    · obtain ⟨w, hw, rfl⟩ := List.mem_map.mp hx
      have hk : w.1.take 2 ∈
          (infoWrites (Exporter.refreshLoop resolve s e nodes).trace).map fun w => w.1.take 2 :=
        List.mem_map.mpr ⟨w, hw, rfl⟩
      rw [refreshLoop_info_keys] at hk
      obtain ⟨n, hn, hkn⟩ := List.mem_map.mp hk
      exact ⟨n, hn, hkn.symm⟩

theorem refreshTimes_families {σ ε : Type} (resolve : σ → String → σ × Resolved ε)
    (nodes : List NodeConfig) (k : Nat) :
    ∀ (s : σ) (e : Exporter), FamiliesOf nodes e →
      FamiliesOf nodes (refreshTimes resolve nodes k s e).2 := by
  induction k with
  | zero => intro s e h; exact h
  | succ k ih =>
    intro s e h
    unfold refreshTimes
    exact ih _ _ (refresh_keeps_families resolve nodes s e h)

theorem refresh_flag_labels_exact {σ ε : Type} (resolve : σ → String → σ × Resolved ε)
    (nodes : List NodeConfig) (hkeys : (nodes.map fun node => [node.Name, node.Endpoint]).Nodup)
    (s : σ) (e : Exporter)
    (h : GaugeVec.labels e.resolveErrorFlag = [] ∨
      GaugeVec.labels e.resolveErrorFlag = nodes.map fun node => [node.Name, node.Endpoint]) :
    GaugeVec.labels (Exporter.Refresh resolve s e nodes).exporter.resolveErrorFlag =
      nodes.map fun node => [node.Name, node.Endpoint] := by
  unfold Exporter.Refresh
  dsimp only
  rw [refreshLoop_flag_labels]
  rcases h with h | h
  · rw [h, addLabels_fresh _ _ hkeys (by simp)]
    simp
  · rw [h, addLabels_present _ _ (fun w hw => hw)]

theorem refreshTimes_flag_labels {σ ε : Type} (resolve : σ → String → σ × Resolved ε)
    (nodes : List NodeConfig) (hkeys : (nodes.map fun node => [node.Name, node.Endpoint]).Nodup)
    (k : Nat) :
    ∀ (s : σ) (e : Exporter),
      (GaugeVec.labels e.resolveErrorFlag = [] ∨
        GaugeVec.labels e.resolveErrorFlag = nodes.map fun node => [node.Name, node.Endpoint]) →
      (GaugeVec.labels (refreshTimes resolve nodes k s e).2.resolveErrorFlag = [] ∨
        GaugeVec.labels (refreshTimes resolve nodes k s e).2.resolveErrorFlag =
          nodes.map fun node => [node.Name, node.Endpoint]) := by
  induction k with
  | zero => intro s e h; exact h
  | succ k ih =>
    intro s e h
    unfold refreshTimes
    exact ih _ _ (Or.inr (refresh_flag_labels_exact resolve nodes hkeys s e h))

/-! ## The claim on the snapshot -/

/-- C14 fails as stated: one node, a first `Refresh` in which its resolution
succeeds and a second in which it fails; the identity family then has two
series for the node, the one of the first refresh and the one with the
"unknown" labels, and the error-flag family has one. -/
theorem stale_series_remains :
    (refreshTimes (fakeResolver fun k => k == 1)
        [{ Name := "edge-1", Endpoint := "203.0.113.7" }] 2 0 NewExporter).2 =
      { datacenterInfo :=
          [(["edge-1", "203.0.113.7", "ACME", "Paris", "unknown", "France", "48.860000",
              "2.350000"], 1),
            (["edge-1", "203.0.113.7", "unknown", "unknown", "unknown", "unknown", "0.000000",
              "0.000000"], 1)]
        resolveErrorFlag := [(["edge-1", "203.0.113.7"], 1)] } := by
  decide

/-- C14, amended: for every list of nodes, every resolver and every number of
calls of `Refresh` on the list from empty families, after each call the
error-flag family has one series for each node of the list and no other (and
its series are those of the nodes, in their order, when no two nodes have the
same name and endpoint); the identity family has, for each node, the series
that this call wrote for it, has no series but series of the nodes of the
list, and keeps every series that it had before the call; after the first
call the series of the identity family are those that the call wrote, one
for each node when no two nodes have the same name and endpoint. -/
theorem snapshot_after_refresh {σ ε : Type} (resolve : σ → String → σ × Resolved ε)
    (nodes : List NodeConfig) (k : Nat) (s : σ) :
    ((GaugeVec.labels (nthRefresh resolve nodes k s).exporter.resolveErrorFlag).Nodup ∧
      ∀ x, x ∈ GaugeVec.labels (nthRefresh resolve nodes k s).exporter.resolveErrorFlag ↔
        ∃ n ∈ nodes, x = [n.Name, n.Endpoint]) ∧
    ((nodes.map fun node => [node.Name, node.Endpoint]).Nodup →
      GaugeVec.labels (nthRefresh resolve nodes k s).exporter.resolveErrorFlag =
        nodes.map fun node => [node.Name, node.Endpoint]) ∧
    ((GaugeVec.labels (nthRefresh resolve nodes k s).exporter.datacenterInfo).Nodup ∧
      (∀ w ∈ infoWrites (nthRefresh resolve nodes k s).trace,
        w.1 ∈ GaugeVec.labels (nthRefresh resolve nodes k s).exporter.datacenterInfo) ∧
      (∀ n ∈ nodes, ∃ x ∈ GaugeVec.labels (nthRefresh resolve nodes k s).exporter.datacenterInfo,
        x.take 2 = [n.Name, n.Endpoint]) ∧
      (∀ x ∈ GaugeVec.labels (nthRefresh resolve nodes k s).exporter.datacenterInfo,
        ∃ n ∈ nodes, x.take 2 = [n.Name, n.Endpoint])) ∧
    (∀ x ∈ GaugeVec.labels (refreshTimes resolve nodes k s NewExporter).2.datacenterInfo,
      x ∈ GaugeVec.labels (nthRefresh resolve nodes k s).exporter.datacenterInfo) ∧
    ((nodes.map fun node => [node.Name, node.Endpoint]).Nodup →
      GaugeVec.labels (nthRefresh resolve nodes 0 s).exporter.datacenterInfo =
        ((infoWrites (nthRefresh resolve nodes 0 s).trace).map fun w => w.1) ∧
      (GaugeVec.labels (nthRefresh resolve nodes 0 s).exporter.datacenterInfo).length =
        nodes.length) := by
  have hempty : FamiliesOf nodes NewExporter := by
    refine ⟨?_, ?_, ?_, ?_⟩ <;> simp [NewExporter, GaugeVec.labels]
  have hbefore := refreshTimes_families resolve nodes k s NewExporter hempty
  have hafter := refresh_keeps_families resolve nodes
    (refreshTimes resolve nodes k s NewExporter).1 _ hbefore
  have hinfo : ∀ (s0 : σ) (e0 : Exporter) (x : List String),
      x ∈ GaugeVec.labels (Exporter.Refresh resolve s0 e0 nodes).exporter.datacenterInfo ↔
        x ∈ GaugeVec.labels e0.datacenterInfo ∨
          x ∈ (infoWrites (Exporter.Refresh resolve s0 e0 nodes).trace).map fun w => w.1 := by
    intro s0 e0 x
    unfold Exporter.Refresh
    dsimp only
    rw [refreshLoop_info_labels, mem_addLabels]
  have hwritten : ∀ w ∈ infoWrites (nthRefresh resolve nodes k s).trace,
      w.1 ∈ GaugeVec.labels (nthRefresh resolve nodes k s).exporter.datacenterInfo := by
    intro w hw
    unfold nthRefresh at hw ⊢
    exact (hinfo _ _ _).mpr (Or.inr (List.mem_map.mpr ⟨w, hw, rfl⟩))
  have hkeys : ∀ (s0 : σ) (e0 : Exporter),
      ((infoWrites (Exporter.Refresh resolve s0 e0 nodes).trace).map fun w => w.1.take 2) =
        nodes.map fun node => [node.Name, node.Endpoint] := by
    intro s0 e0
    unfold Exporter.Refresh
    dsimp only
    exact refreshLoop_info_keys resolve nodes s0 e0
  refine ⟨⟨hafter.1, fun x => ⟨hafter.2.2.1 x, ?_⟩⟩, ?_, ⟨hafter.2.1, hwritten, ?_, hafter.2.2.2⟩,
    ?_, ?_⟩
  · rintro ⟨n, hn, rfl⟩
    unfold nthRefresh Exporter.Refresh
    dsimp only
    rw [refreshLoop_flag_labels, mem_addLabels]
    exact Or.inr (List.mem_map.mpr ⟨n, hn, rfl⟩)
  · intro hnd
    unfold nthRefresh
    apply refresh_flag_labels_exact resolve nodes hnd
    exact refreshTimes_flag_labels resolve nodes hnd k s NewExporter (Or.inl rfl)
  · intro n hn
    have hk : [n.Name, n.Endpoint] ∈
        (infoWrites (nthRefresh resolve nodes k s).trace).map fun w => w.1.take 2 := by
      unfold nthRefresh
      rw [hkeys]
      exact List.mem_map.mpr ⟨n, hn, rfl⟩
    obtain ⟨w, hw, hwk⟩ := List.mem_map.mp hk
    exact ⟨w.1, hwritten w hw, hwk⟩
  · intro x hx
    unfold nthRefresh
    exact (hinfo _ _ _).mpr (Or.inl hx)
  · intro hnd
    have hws : ((infoWrites (nthRefresh resolve nodes 0 s).trace).map fun w => w.1).Nodup := by
      have h2 := hkeys s NewExporter
      have h3 : (((infoWrites (Exporter.Refresh resolve s NewExporter nodes).trace).map
          fun w => w.1).map fun l => l.take 2).Nodup := by
        rw [List.map_map]
        have : ((fun l : List String => l.take 2) ∘ fun w : List String × Nat => w.1) =
            fun w => w.1.take 2 := rfl
        rw [this, h2]
        exact hnd
      exact List.Nodup.of_map _ h3
    have hlabels : GaugeVec.labels (nthRefresh resolve nodes 0 s).exporter.datacenterInfo =
        ((infoWrites (nthRefresh resolve nodes 0 s).trace).map fun w => w.1) := by
      have hfresh := addLabels_fresh _ [] hws (by simp)
      unfold nthRefresh refreshTimes Exporter.Refresh at hfresh ⊢
      dsimp only at hfresh ⊢
      rw [refreshLoop_info_labels]
      simpa [NewExporter, GaugeVec.labels] using hfresh
    refine ⟨hlabels, ?_⟩
    rw [hlabels, List.length_map]
    have := congrArg List.length (hkeys s NewExporter)
    simpa [nthRefresh, refreshTimes] using this

/-- C14, amended, at an instance: the second `Refresh` of one node whose
resolution succeeded in the first and fails in the second. -/
theorem snapshot_after_refresh_witness :
    GaugeVec.labels (nthRefresh (fakeResolver fun k => k == 1)
        [{ Name := "edge-1", Endpoint := "203.0.113.7" }] 1 0).exporter.resolveErrorFlag =
      [["edge-1", "203.0.113.7"]] ∧
    (GaugeVec.labels (nthRefresh (fakeResolver fun k => k == 1)
        [{ Name := "edge-1", Endpoint := "203.0.113.7" }] 1 0).exporter.datacenterInfo).length
      = 2 :=
  ⟨(snapshot_after_refresh (fakeResolver fun k => k == 1)
      [{ Name := "edge-1", Endpoint := "203.0.113.7" }] 1 0).2.1 (by decide), by decide⟩

/-! ## The claim on the configuration -/

theorem validateNodes_accepts (nodes : List NodeConfig) :
    ∀ i : Nat, validateNodes i nodes = none →
      ∀ node ∈ nodes, TrimSpace node.Name ≠ "" ∧ ParseIP (TrimSpace node.Endpoint) = true := by
  induction nodes with
  | nil => intro i _ node hn; simp at hn
  | cons n rest ih =>
    intro i h node hn
    unfold validateNodes at h
    by_cases h1 : TrimSpace n.Name = ""
    · simp [h1] at h
    · by_cases h2 : ParseIP (TrimSpace n.Endpoint) = false
      · simp [h1, h2] at h
      · rw [if_neg h1, if_neg h2] at h
        rcases List.mem_cons.mp hn with rfl | hmem
        · exact ⟨h1, by simpa using h2⟩
        · exact ih (i + 1) h node hmem

theorem applyDefaults_nodes (c : Config) : c.ApplyDefaults.Nodes = c.Nodes := by
  unfold Config.ApplyDefaults
  dsimp only
  split_ifs <;> rfl

/-- C18 fails as stated: `Validate` accepts, and `Load` returns, a
configuration whose node has the endpoint " 203.0.113.7 ", which is not an IP
address as it is stored; it is one once the blanks around it are trimmed. -/
theorem padded_endpoint_is_accepted :
    paddedConfig.Validate = none ∧
    Load (some (some paddedConfig)) = Except.ok paddedConfig ∧
    paddedConfig.Nodes = [{ Name := "edge-1", Endpoint := " 203.0.113.7 " }] ∧
    ParseIP " 203.0.113.7 " = false ∧
    ParseIP (TrimSpace " 203.0.113.7 ") = true := by
  decide

/-- C18, amended: in every configuration that `Validate` accepts, and in
every configuration that `Load` returns, the list of nodes is not empty and
every node has a name that is not empty, nor blank, and an endpoint that is
an IP address once the white space around it is trimmed. -/
theorem validated_nodes :
    (∀ c : Config, c.Validate = none →
      c.Nodes ≠ [] ∧
      ∀ node ∈ c.Nodes, node.Name ≠ "" ∧ TrimSpace node.Name ≠ "" ∧
        ParseIP (TrimSpace node.Endpoint) = true) ∧
    (∀ (file : Option (Option Config)) (c : Config), Load file = Except.ok c →
      c.Nodes ≠ [] ∧
      ∀ node ∈ c.Nodes, node.Name ≠ "" ∧ TrimSpace node.Name ≠ "" ∧
        ParseIP (TrimSpace node.Endpoint) = true) := by
  have hvalid : ∀ c : Config, c.Validate = none →
      c.Nodes ≠ [] ∧
      ∀ node ∈ c.Nodes, node.Name ≠ "" ∧ TrimSpace node.Name ≠ "" ∧
        ParseIP (TrimSpace node.Endpoint) = true := by
    intro c h
    unfold Config.Validate at h
    dsimp only at h
    split_ifs at h with h1 h2 h3 h4 h5
    refine ⟨fun hnil => h5 (by rw [hnil]; rfl), fun node hn => ?_⟩
    obtain ⟨ha, hb⟩ := validateNodes_accepts c.Nodes 0 h node hn
    refine ⟨fun hname => ha ?_, ha, hb⟩
    rw [hname]
    decide
  refine ⟨hvalid, ?_⟩
  intro file c h
  unfold Load at h
  split at h
  · simp at h
  · simp at h
  · rename_i cfg
    split at h
    · simp at h
    · rename_i hv
      have hc : cfg.ApplyDefaults = c := by
        injection h
      rw [← hc]
      exact hvalid _ hv

/-- C18, amended, at an instance: the configuration with the padded endpoint. -/
theorem validated_nodes_witness :
    paddedConfig.Nodes ≠ [] ∧
    ∀ node ∈ paddedConfig.Nodes, node.Name ≠ "" ∧ TrimSpace node.Name ≠ "" ∧
      ParseIP (TrimSpace node.Endpoint) = true :=
  validated_nodes.1 paddedConfig (by decide)

end IPScope
